import Mathlib

set_option autoImplicit false

/-!
# Verification of the Jira ↔ Freshdesk reconciliation engine

A shallow embedding, in Lean 4, of the core synchronization logic of the
`sync-project` repository (`src/services/sync_service.py`,
`src/services/jira_service.py`, `src/services/freshdesk_service.py`,
`src/utils/text_utils.py`, `src/utils/date_utils.py`, `src/orchestrator.py`),
together with theorems settling the stated properties of that code.

Python strings are modelled as `List Char` (with `String` wrappers where
convenient); Python character classes follow the ASCII semantics of the
regexes used by the code (`\w` = alphanumeric or underscore, `\s` =
whitespace).  External HTTP traffic is modelled as an explicit list of
`Call` values produced by each phase, and external responses as explicit
environment records, so that every control-flow branch of the source is
represented.
-/

namespace ITSM

/-! ## Groundwork: characters

Arithmetic characterizations of the Lean character-class functions used by
the embedding, so that facts about `Char.toLower` can be settled by `omega`
over code points. -/

theorem uint32_le_iff (a b : UInt32) : a ≤ b ↔ a.toNat ≤ b.toNat := by
  simp [UInt32.le_def, BitVec.le_def, UInt32.toNat]

theorem char_eq_iff_toNat (c d : Char) : c = d ↔ c.toNat = d.toNat :=
  ⟨fun h => h ▸ rfl, fun h => Char.ext (UInt32.ext h)⟩

theorem toNat_ofNat_valid {m : Nat} (h : m.isValidChar) : (Char.ofNat m).toNat = m := by
  rw [Char.ofNat, dif_pos h]
  simp [Char.ofNatAux, Char.toNat, UInt32.ofNat', BitVec.ofNatLt, UInt32.toNat]

theorem isUpper_iff (c : Char) : c.isUpper = true ↔ 65 ≤ c.toNat ∧ c.toNat ≤ 90 := by
  have h1 := uint32_le_iff 65 c.val
  have h2 := uint32_le_iff c.val 90
  simp [Char.isUpper, h1, h2, Char.toNat]
  norm_num [UInt32.size]

theorem isLower_iff (c : Char) : c.isLower = true ↔ 97 ≤ c.toNat ∧ c.toNat ≤ 122 := by
  have h1 := uint32_le_iff 97 c.val
  have h2 := uint32_le_iff c.val 122
  simp [Char.isLower, h1, h2, Char.toNat]
  norm_num [UInt32.size]

theorem isDigit_iff (c : Char) : c.isDigit = true ↔ 48 ≤ c.toNat ∧ c.toNat ≤ 57 := by
  have h1 := uint32_le_iff 48 c.val
  have h2 := uint32_le_iff c.val 57
  simp [Char.isDigit, h1, h2, Char.toNat]
  norm_num [UInt32.size]

theorem isWhitespace_iff (c : Char) : c.isWhitespace = true ↔
    c.toNat = 32 ∨ c.toNat = 9 ∨ c.toNat = 13 ∨ c.toNat = 10 := by
  simp [Char.isWhitespace, char_eq_iff_toNat]
  tauto

/-- A word character in the sense of the regex `\w` used by
`text_utils.normalize_text` (ASCII reading): alphanumeric or underscore. -/
def isWordChar (c : Char) : Bool := c.isAlphanum || c = '_'

theorem isWordChar_iff (c : Char) : isWordChar c = true ↔
    (48 ≤ c.toNat ∧ c.toNat ≤ 57) ∨ (65 ≤ c.toNat ∧ c.toNat ≤ 90) ∨
    (97 ≤ c.toNat ∧ c.toNat ≤ 122) ∨ c.toNat = 95 := by
  simp [isWordChar, Char.isAlphanum, Char.isAlpha, isUpper_iff, isLower_iff,
    isDigit_iff, char_eq_iff_toNat]
  tauto

theorem toNat_toLower (c : Char) :
    (Char.toLower c).toNat = if 65 ≤ c.toNat ∧ c.toNat ≤ 90 then c.toNat + 32 else c.toNat := by
  unfold Char.toLower
  by_cases h : 65 ≤ c.toNat ∧ c.toNat ≤ 90
  · rw [if_pos h, if_pos h]
    exact toNat_ofNat_valid (Or.inl (by omega))
  · rw [if_neg h, if_neg h]

theorem toLower_idem (c : Char) : Char.toLower (Char.toLower c) = Char.toLower c := by
  rw [char_eq_iff_toNat, toNat_toLower, toNat_toLower]
  split_ifs <;> omega

theorem isWordChar_toLower (c : Char) (h : isWordChar c = true) :
    isWordChar (Char.toLower c) = true := by
  rw [isWordChar_iff] at h ⊢
  rw [toNat_toLower]
  by_cases hu : 65 ≤ c.toNat ∧ c.toNat ≤ 90
  · rw [if_pos hu]; omega
  · rw [if_neg hu]; omega

theorem isWhitespace_toLower (c : Char) :
    (Char.toLower c).isWhitespace = c.isWhitespace := by
  by_cases h : c.isWhitespace = true
  · have h2 := (isWhitespace_iff c).mp h
    have : Char.toLower c = c := by
      rw [char_eq_iff_toNat, toNat_toLower, if_neg (by omega)]
    rw [this]
  · simp only [Bool.not_eq_true] at h
    rw [h, ← Bool.not_eq_true, isWhitespace_iff, toNat_toLower]
    rw [← Bool.not_eq_true, isWhitespace_iff] at h
    by_cases hu : 65 ≤ c.toNat ∧ c.toNat ≤ 90
    · rw [if_pos hu]; omega
    · rw [if_neg hu]; omega

theorem wordChar_not_ws (c : Char) (h : isWordChar c = true) : c.isWhitespace = false := by
  rw [isWordChar_iff] at h
  rw [← Bool.not_eq_true, isWhitespace_iff]
  omega

theorem toLower_space : Char.toLower ' ' = ' ' := by decide

/-! ## `src/utils/text_utils.py`

`strip_html_tags` embeds `re.sub(r'<[^>]*>', '', html_string)` and
`normalize_text` embeds

```
text_no_punct = re.sub(r'[^\w\s]', '', text)
return re.sub(r'\s+', ' ', text_no_punct).strip().lower()
```

over `List Char`, reading the regex character classes `\w` and `\s` with
their ASCII semantics (`Char.isWhitespace` covers space, tab, CR, LF). -/

/-- One step of the leftmost, non-overlapping matching of `<[^>]*>`:
a `<` with a later `>` removes everything through that `>`; a `<` with no
closing `>` (hence no further match anywhere) leaves the rest untouched. -/
def strip_html_tags_chars : List Char → List Char
  | [] => []
  | c :: cs =>
    if c = '<' then
      if (cs.dropWhile (fun d => !(d = '>'))).isEmpty then c :: cs
      else strip_html_tags_chars ((cs.dropWhile (fun d => !(d = '>'))).tail)
    else
      c :: strip_html_tags_chars cs
termination_by l => l.length
decreasing_by
  · simp only [List.length_cons]
    have h1 : (cs.dropWhile (fun d => !(d = '>'))).length ≤ cs.length :=
      cs.dropWhile_sublist _ |>.length_le
    have h2 : ((cs.dropWhile (fun d => !(d = '>'))).tail).length =
        (cs.dropWhile (fun d => !(d = '>'))).length - 1 := List.length_tail _
    omega
  · simp only [List.length_cons]; omega

/-- Embeds `text_utils.strip_html_tags` (empty-guard included). -/
def strip_html_tags (s : String) : String :=
  if s.data = [] then "" else String.mk (strip_html_tags_chars s.data)

/-- Embeds `re.sub(r'[^\w\s]', '', text)`: delete every character that is
neither a word character nor whitespace. -/
def removeNonWordSpace (l : List Char) : List Char :=
  l.filter (fun c => isWordChar c || c.isWhitespace)

/-- Embeds `re.sub(r'\s+', ' ', l)`: each maximal whitespace run becomes a
single space.  The flag records whether the previous character was part of a
whitespace run already replaced. -/
def collapseWsAux : Bool → List Char → List Char
  | _, [] => []
  | prevWs, c :: cs =>
    if c.isWhitespace then
      (if prevWs then [] else [' ']) ++ collapseWsAux true cs
    else
      c :: collapseWsAux false cs

def collapseWs (l : List Char) : List Char := collapseWsAux false l

/-- Removal of the maximal all-whitespace suffix, the trailing half of
Python `str.strip()`. -/
def rstripChars : List Char → List Char
  | [] => []
  | c :: cs =>
    let r := rstripChars cs
    if r.isEmpty && c.isWhitespace then [] else c :: r

/-- Embeds Python `str.strip()` (no argument): drop leading and trailing
whitespace. -/
def pyStrip (l : List Char) : List Char :=
  rstripChars (l.dropWhile Char.isWhitespace)

/-- Embeds Python `str.lower()` on the ASCII range. -/
def lowerAll (l : List Char) : List Char := l.map Char.toLower

/-- Embeds `text_utils.normalize_text` on character lists, including the
falsy-input guard `if not text: return ""`. -/
def normalize_text_chars (l : List Char) : List Char :=
  if l = [] then [] else lowerAll (pyStrip (collapseWs (removeNonWordSpace l)))

/-- Embeds `text_utils.normalize_text`. -/
def normalize_text (s : String) : String :=
  String.mk (normalize_text_chars s.data)

/-! Shape invariants of the normalization pipeline, used to settle its
idempotence: after one pass every character is a word character or a single
isolated space, and the ends are not whitespace. -/

def headNotWs : List Char → Bool
  | [] => true
  | c :: _ => !c.isWhitespace

/-- Whitespace appears only as a single space followed by a non-whitespace
character (or the end of the list). -/
def goodRun : List Char → Bool
  | [] => true
  | c :: cs => (if c.isWhitespace then c = ' ' && headNotWs cs else true) && goodRun cs

def noTrailWs : List Char → Bool
  | [] => true
  | [c] => !c.isWhitespace
  | _ :: cs => noTrailWs cs

theorem mem_collapseWsAux {c : Char} :
    ∀ (l : List Char) (b : Bool), c ∈ collapseWsAux b l →
      c = ' ' ∨ (c ∈ l ∧ c.isWhitespace = false) := by
  intro l
  induction l with
  | nil => intro b h; simp [collapseWsAux] at h
  | cons d ds ih =>
    intro b h
    unfold collapseWsAux at h
    by_cases hws : d.isWhitespace
    · rw [if_pos hws] at h
      rcases List.mem_append.mp h with h1 | h1
      · left
        cases b <;> simp at h1 <;> simp [h1]
      · rcases ih true h1 with h2 | h2
        · exact Or.inl h2
        · exact Or.inr ⟨List.mem_cons_of_mem _ h2.1, h2.2⟩
    · rw [if_neg hws] at h
      rcases List.mem_cons.mp h with h1 | h1
      · subst h1
        exact Or.inr ⟨List.mem_cons_self _ _, by simpa using hws⟩
      · rcases ih false h1 with h2 | h2
        · exact Or.inl h2
        · exact Or.inr ⟨List.mem_cons_of_mem _ h2.1, h2.2⟩

theorem headNotWs_collapseWsAux_true :
    ∀ l : List Char, headNotWs (collapseWsAux true l) = true := by
  intro l
  induction l with
  | nil => rfl
  | cons d ds ih =>
    unfold collapseWsAux
    by_cases hws : d.isWhitespace
    · rw [if_pos hws]; simpa using ih
    · rw [if_neg hws]; simpa [headNotWs] using hws

theorem goodRun_collapseWsAux :
    ∀ (l : List Char) (b : Bool), goodRun (collapseWsAux b l) = true := by
  intro l
  induction l with
  | nil => intro b; rfl
  | cons d ds ih =>
    intro b
    unfold collapseWsAux
    by_cases hws : d.isWhitespace
    · rw [if_pos hws]
      cases b with
      | true => simpa using ih true
      | false =>
        simp only [List.singleton_append, goodRun]
        have h1 := headNotWs_collapseWsAux_true ds
        have h2 := ih true
        simp [h1, h2]
    · rw [if_neg hws]
      simp [goodRun, hws, ih false]

theorem goodRun_cons {c : Char} {cs : List Char} (h : goodRun (c :: cs) = true) :
    goodRun cs = true ∧ (c.isWhitespace = true → c = ' ' ∧ headNotWs cs = true) := by
  unfold goodRun at h
  by_cases hws : c.isWhitespace
  · rw [if_pos hws] at h
    simp only [Bool.and_eq_true] at h
    exact ⟨h.2, fun _ => ⟨by simpa using h.1.1, h.1.2⟩⟩
  · rw [if_neg hws] at h
    simp only [Bool.true_and] at h
    exact ⟨h, fun hc => absurd hc hws⟩

theorem goodRun_dropWhile (p : Char → Bool) :
    ∀ l : List Char, goodRun l = true → goodRun (l.dropWhile p) = true := by
  intro l
  induction l with
  | nil => intro h; exact h
  | cons d ds ih =>
    intro h
    rw [List.dropWhile_cons]
    by_cases hp : p d
    · rw [if_pos hp]; exact ih (goodRun_cons h).1
    · rw [if_neg hp]; exact h

theorem headNotWs_dropWhileWs (l : List Char) :
    headNotWs (l.dropWhile Char.isWhitespace) = true := by
  induction l with
  | nil => rfl
  | cons d ds ih =>
    rw [List.dropWhile_cons]
    by_cases hp : d.isWhitespace
    · rw [if_pos hp]; exact ih
    · rw [if_neg hp]; simpa [headNotWs] using hp

theorem mem_rstripChars {c : Char} : ∀ l : List Char, c ∈ rstripChars l → c ∈ l := by
  intro l
  induction l with
  | nil => intro h; exact h
  | cons d ds ih =>
    intro h
    unfold rstripChars at h
    by_cases hc : (rstripChars ds).isEmpty && d.isWhitespace
    · rw [if_pos hc] at h; simp at h
    · rw [if_neg hc] at h
      rcases List.mem_cons.mp h with h1 | h1
      · exact h1 ▸ List.mem_cons_self _ _
      · exact List.mem_cons_of_mem _ (ih h1)

theorem headNotWs_rstripChars : ∀ l : List Char, headNotWs l = true →
    headNotWs (rstripChars l) = true := by
  intro l
  induction l with
  | nil => intro h; exact h
  | cons d ds _ =>
    intro h
    unfold rstripChars
    by_cases hc : (rstripChars ds).isEmpty && d.isWhitespace
    · rw [if_pos hc]; rfl
    · rw [if_neg hc]; exact h

theorem goodRun_rstripChars : ∀ l : List Char, goodRun l = true →
    goodRun (rstripChars l) = true := by
  intro l
  induction l with
  | nil => intro h; exact h
  | cons d ds ih =>
    intro h
    have h1 := goodRun_cons h
    unfold rstripChars
    by_cases hc : (rstripChars ds).isEmpty && d.isWhitespace
    · rw [if_pos hc]; rfl
    · rw [if_neg hc]
      unfold goodRun
      by_cases hws : d.isWhitespace
      · rw [if_pos hws]
        have h2 := h1.2 hws
        have h3 : headNotWs ds = true := h2.2
        have h4 : headNotWs (rstripChars ds) = true := by
          cases ds with
          | nil => rfl
          | cons e es =>
            have he : e.isWhitespace = false := by simpa [headNotWs] using h3
            unfold rstripChars
            by_cases hc2 : (rstripChars es).isEmpty && e.isWhitespace
            · simp [he] at hc2
            · rw [if_neg hc2]; simpa [headNotWs] using he
        simp [h2.1, h4, ih h1.1]
      · rw [if_neg hws]
        simp [ih h1.1]

theorem noTrailWs_rstripChars : ∀ l : List Char, noTrailWs (rstripChars l) = true := by
  intro l
  induction l with
  | nil => rfl
  | cons d ds ih =>
    unfold rstripChars
    by_cases hc : (rstripChars ds).isEmpty && d.isWhitespace
    · rw [if_pos hc]; rfl
    · rw [if_neg hc]
      simp only [Bool.and_eq_true, Bool.not_eq_true] at hc
      cases hr : rstripChars ds with
      | nil =>
        have hise : (rstripChars ds).isEmpty = true := by simp [hr]
        have hd : d.isWhitespace = false := by
          by_contra h2
          simp only [Bool.not_eq_false] at h2
          exact hc ⟨hise, h2⟩
        simpa [noTrailWs] using hd
      | cons e es =>
        show noTrailWs (d :: e :: es) = true
        unfold noTrailWs
        rw [← hr]
        exact ih

theorem rstripChars_eq_self : ∀ l : List Char, noTrailWs l = true → rstripChars l = l := by
  intro l
  induction l with
  | nil => intro _; rfl
  | cons d ds ih =>
    intro h
    unfold rstripChars
    cases ds with
    | nil =>
      have hd : d.isWhitespace = false := by simpa [noTrailWs] using h
      simp [rstripChars, hd]
    | cons e es =>
      have h1 : noTrailWs (e :: es) = true := h
      have h2 := ih h1
      rw [h2]
      simp [List.isEmpty]

theorem headNotWs_lowerAll (l : List Char) : headNotWs (lowerAll l) = headNotWs l := by
  cases l with
  | nil => rfl
  | cons d ds => simp [lowerAll, headNotWs, isWhitespace_toLower]

theorem goodRun_lowerAll : ∀ l : List Char, goodRun l = true →
    goodRun (lowerAll l) = true := by
  intro l
  induction l with
  | nil => intro h; exact h
  | cons d ds ih =>
    intro h
    have h1 := goodRun_cons h
    show goodRun (Char.toLower d :: lowerAll ds) = true
    unfold goodRun
    by_cases hws : d.isWhitespace
    · have h2 := h1.2 hws
      rw [if_pos (by rw [isWhitespace_toLower]; exact hws)]
      rw [h2.1, toLower_space, headNotWs_lowerAll]
      simp [h2.2, ih h1.1]
    · rw [if_neg (by rw [isWhitespace_toLower]; exact hws)]
      simp [ih h1.1]

theorem noTrailWs_lowerAll : ∀ l : List Char, noTrailWs l = true →
    noTrailWs (lowerAll l) = true := by
  intro l
  induction l with
  | nil => intro h; exact h
  | cons d ds ih =>
    intro h
    cases ds with
    | nil =>
      have hd : d.isWhitespace = false := by simpa [noTrailWs] using h
      show noTrailWs [Char.toLower d] = true
      simp [noTrailWs, isWhitespace_toLower, hd]
    | cons e es =>
      have h1 : noTrailWs (e :: es) = true := h
      show noTrailWs (Char.toLower d :: Char.toLower e :: lowerAll es) = true
      unfold noTrailWs
      exact ih h1

theorem collapseWsAux_true_eq_false {l : List Char} (h : headNotWs l = true) :
    collapseWsAux true l = collapseWsAux false l := by
  cases l with
  | nil => rfl
  | cons d ds =>
    have hd : d.isWhitespace = false := by simpa [headNotWs] using h
    unfold collapseWsAux
    rw [if_neg (by simp [hd]), if_neg (by simp [hd])]

theorem collapseWsAux_eq_self : ∀ l : List Char, goodRun l = true →
    collapseWsAux false l = l := by
  intro l
  induction l with
  | nil => intro _; rfl
  | cons d ds ih =>
    intro h
    have h1 := goodRun_cons h
    unfold collapseWsAux
    by_cases hws : d.isWhitespace
    · rw [if_pos hws]
      have h2 := h1.2 hws
      rw [collapseWsAux_true_eq_false h2.2, ih h1.1, h2.1]
      rfl
    · rw [if_neg hws, ih h1.1]

theorem dropWhileWs_eq_self {l : List Char} (h : headNotWs l = true) :
    l.dropWhile Char.isWhitespace = l := by
  cases l with
  | nil => rfl
  | cons d ds =>
    have hd : d.isWhitespace = false := by simpa [headNotWs] using h
    simp [List.dropWhile_cons, hd]

theorem normalize_text_chars_idem (l : List Char) :
    normalize_text_chars (normalize_text_chars l) = normalize_text_chars l := by
  by_cases hl : l = []
  · simp [hl, normalize_text_chars]
  · have hinner : normalize_text_chars l = lowerAll (pyStrip (collapseWs (removeNonWordSpace l))) := by
      rw [normalize_text_chars, if_neg hl]
    rw [hinner]
    by_cases hr : lowerAll (pyStrip (collapseWs (removeNonWordSpace l))) = []
    · rw [hr]
      rfl
    · set u := pyStrip (collapseWs (removeNonWordSpace l)) with hu
      set r := lowerAll u with hrdef
      have hmem_u : ∀ c ∈ u, c = ' ' ∨ (isWordChar c = true ∧ c.isWhitespace = false) := by
        intro c hc
        have hc1 : c ∈ collapseWs (removeNonWordSpace l) := by
          have := mem_rstripChars _ hc
          exact List.dropWhile_sublist _ |>.subset this
        rcases mem_collapseWsAux _ _ hc1 with h1 | h1
        · exact Or.inl h1
        · right
          refine ⟨?_, h1.2⟩
          have := List.mem_filter.mp h1.1
          rcases Bool.or_eq_true _ _ |>.mp this.2 with h2 | h2
          · exact h2
          · rw [h2] at h1; cases h1.2
      have hmem_r : ∀ c ∈ r, c = ' ' ∨ (isWordChar c = true ∧ c.isWhitespace = false) := by
        intro c hc
        rcases List.mem_map.mp hc with ⟨d, hd, rfl⟩
        rcases hmem_u d hd with h1 | h1
        · left; rw [h1, toLower_space]
        · right
          exact ⟨isWordChar_toLower d h1.1, by rw [isWhitespace_toLower]; exact h1.2⟩
      have h1 : removeNonWordSpace r = r := by
        apply List.filter_eq_self.mpr
        intro c hc
        rcases hmem_r c hc with h2 | h2
        · simp [h2, isWordChar]
        · simp [h2.1]
      have hgood : goodRun r = true := by
        apply goodRun_lowerAll
        apply goodRun_rstripChars
        apply goodRun_dropWhile
        exact goodRun_collapseWsAux _ _
      have h2 : collapseWs r = r := collapseWsAux_eq_self r hgood
      have hhead : headNotWs r = true := by
        rw [hrdef, headNotWs_lowerAll]
        exact headNotWs_rstripChars _ (headNotWs_dropWhileWs _)
      have hnt : noTrailWs r = true :=
        noTrailWs_lowerAll _ (noTrailWs_rstripChars _)
      have h3 : pyStrip r = r := by
        rw [pyStrip, dropWhileWs_eq_self hhead, rstripChars_eq_self r hnt]
      have h4 : lowerAll r = r := by
        rw [hrdef, lowerAll, lowerAll, List.map_map]
        congr 1
        funext c
        exact toLower_idem c
      rw [normalize_text_chars, if_neg hr, h1, h2, h3, h4]

/-- C9: `normalize_text` is idempotent — applying it twice gives the same
result as applying it once, since one application leaves only word
characters and single interior spaces, lowercased, with no leading or
trailing whitespace. -/
theorem C9_normalize_text_idempotent (s : String) :
    normalize_text (normalize_text s) = normalize_text s :=
  congrArg String.mk (normalize_text_chars_idem s.data)

/-! ## `src/utils/date_utils.py`

`parse_datetime` wraps `datetime.fromisoformat` (after replacing `Z` by
`+00:00`) in a `try/except`, then converts to UTC with
`astimezone(timezone.utc)`.  The `datetime` standard-library pieces the
code calls are modelled below: a `PyDatetime` value is calendar fields
plus an optional UTC offset in minutes (`none` = naive), `fromisoformat`
follows the pre-3.11 accepted grammar
`YYYY-MM-DD[*HH[:MM[:SS[.fff[fff]]]][±HH:MM]]` with calendar validation,
and `astimezone` on a naive value reads it in the process-local timezone,
modelled here as UTC. -/

structure PyDatetime where
  year : Nat
  month : Nat
  day : Nat
  hour : Nat
  minute : Nat
  second : Nat
  microsecond : Nat
  tzOffsetMinutes : Option Int
deriving DecidableEq, Repr

def isLeapYear (y : Nat) : Bool := (y % 4 = 0 && !(y % 100 = 0)) || y % 400 = 0

def daysInMonth (y m : Nat) : Nat :=
  if m = 2 then (if isLeapYear y then 29 else 28)
  else if m = 4 ∨ m = 6 ∨ m = 9 ∨ m = 11 then 30
  else 31

def daysBeforeYear (y : Nat) : Nat :=
  let n := y - 1
  n * 365 + n / 4 - n / 100 + n / 400

def daysBeforeMonth (y : Nat) : Nat → Nat
  | 0 => 0
  | m + 1 => if m = 0 then 0 else daysBeforeMonth y m + daysInMonth y m

/-- Proleptic-Gregorian ordinal of a date, day 1 = 0001-01-01
(Python `date.toordinal`). -/
def toOrdinal (y m d : Nat) : Nat := daysBeforeYear y + daysBeforeMonth y m + d

/-- Seconds since the start of 0001-01-01 of the naive calendar fields. -/
def naiveEpochSecs (dt : PyDatetime) : Nat :=
  (toOrdinal dt.year dt.month dt.day - 1) * 86400 +
    dt.hour * 3600 + dt.minute * 60 + dt.second

/-- The instant an (aware) datetime denotes, in seconds since the epoch of
`toOrdinal`; a naive value is read with offset zero (local zone = UTC). -/
def utcEpochSecs (dt : PyDatetime) : Int :=
  (naiveEpochSecs dt : Int) - 60 * dt.tzOffsetMinutes.getD 0

/-- Instant-order comparison of two (aware) datetimes, microseconds
included — Python `datetime.__le__`. -/
def dtLe (a b : PyDatetime) : Bool :=
  utcEpochSecs a < utcEpochSecs b ||
    (utcEpochSecs a = utcEpochSecs b && a.microsecond ≤ b.microsecond)

def dtLt (a b : PyDatetime) : Bool :=
  utcEpochSecs a < utcEpochSecs b ||
    (utcEpochSecs a = utcEpochSecs b && a.microsecond < b.microsecond)

/-- Month/day-of-month from a 1-based day-of-year (CPython `_ord2ymd` month
scan); the fuel argument starts at 11, one per possible month advance. -/
def monthScan (y : Nat) : Nat → Nat → Nat → Nat × Nat
  | 0, d, m => (m, d)
  | fuel + 1, d, m =>
    if d ≤ daysInMonth y m then (m, d) else monthScan y fuel (d - daysInMonth y m) (m + 1)

/-- Date from a proleptic-Gregorian ordinal (CPython `_ord2ymd`). -/
def ord2ymd (nIn : Nat) : Nat × Nat × Nat :=
  let n0 := nIn - 1
  let n400 := n0 / 146097
  let r400 := n0 % 146097
  let n100 := r400 / 36524
  let r100 := r400 % 36524
  let n4 := r100 / 1461
  let r4 := r100 % 1461
  let n1 := r4 / 365
  let rest := r4 % 365
  let year := n400 * 400 + 1 + n100 * 100 + n4 * 4 + n1
  if n1 = 4 ∨ n100 = 4 then (year - 1, 12, 31)
  else
    let (m, d) := monthScan year 11 (rest + 1) 1
    (year, m, d)

/-- The aware-UTC datetime at `secs` seconds past the `toOrdinal` epoch. -/
def epochToUtc (secs : Nat) (micro : Nat) : PyDatetime :=
  let (y, m, d) := ord2ymd (secs / 86400 + 1)
  let rem := secs % 86400
  ⟨y, m, d, rem / 3600, rem % 3600 / 60, rem % 60, micro, some 0⟩

/-- `dt.astimezone(timezone.utc)`: same instant, UTC calendar fields,
offset zero. -/
def astimezoneUtc (dt : PyDatetime) : PyDatetime :=
  epochToUtc (utcEpochSecs dt).toNat dt.microsecond

/-- `dt - timedelta(days=n)` for an aware-UTC `dt`. -/
def subDays (dt : PyDatetime) (days : Nat) : PyDatetime :=
  epochToUtc ((utcEpochSecs dt).toNat - days * 86400) dt.microsecond

def digitVal (c : Char) : Nat := c.toNat - 48

def twoDigits (a b : Char) : Option Nat :=
  if a.isDigit && b.isDigit then some (digitVal a * 10 + digitVal b) else none

/-- Fraction part after the dot: pre-3.11 `fromisoformat` accepts exactly 3
or 6 digits, interpreted as micro- or milliseconds. -/
def parseFraction (l : List Char) : Option (Nat × List Char) :=
  match l with
  | a :: b :: c :: d :: e :: f :: rest =>
    if [a, b, c, d, e, f].all Char.isDigit then
      some (digitVal a * 100000 + digitVal b * 10000 + digitVal c * 1000 +
        digitVal d * 100 + digitVal e * 10 + digitVal f, rest)
    else if [a, b, c].all Char.isDigit then
      some ((digitVal a * 100 + digitVal b * 10 + digitVal c) * 1000, d :: e :: f :: rest)
    else none
  | a :: b :: c :: rest =>
    if [a, b, c].all Char.isDigit then
      some ((digitVal a * 100 + digitVal b * 10 + digitVal c) * 1000, rest)
    else none
  | _ => none

/-- UTC-offset suffix `±HH:MM` (the only offset shape the code's inputs
use and pre-3.11 accepts without seconds). -/
def parseOffset (l : List Char) : Option Int :=
  match l with
  | sgn :: h1 :: h2 :: ':' :: m1 :: m2 :: [] =>
    if sgn = '+' ∨ sgn = '-' then
      match twoDigits h1 h2, twoDigits m1 m2 with
      | some hh, some mm =>
        if hh < 24 ∧ mm < 60 then
          some (if sgn = '-' then -((hh : Int) * 60 + mm) else (hh : Int) * 60 + mm)
        else none
      | _, _ => none
    else none
  | _ => none

/-- Time-of-day with optional seconds, fraction and offset:
`HH:MM[:SS[.fff[fff]]][±HH:MM]`. -/
def parseTimePart (l : List Char) : Option (Nat × Nat × Nat × Nat × Option Int) :=
  match l with
  | h1 :: h2 :: ':' :: m1 :: m2 :: rest =>
    match twoDigits h1 h2, twoDigits m1 m2 with
    | some hh, some mm =>
      if hh ≥ 24 ∨ mm ≥ 60 then none
      else
        match rest with
        | [] => some (hh, mm, 0, 0, none)
        | ':' :: s1 :: s2 :: rest2 =>
          match twoDigits s1 s2 with
          | some ss =>
            if ss ≥ 60 then none
            else
              match rest2 with
              | [] => some (hh, mm, ss, 0, none)
              | '.' :: rest3 =>
                match parseFraction rest3 with
                | some (us, rest4) =>
                  match rest4 with
                  | [] => some (hh, mm, ss, us, none)
                  | _ =>
                    match parseOffset rest4 with
                    | some off => some (hh, mm, ss, us, some off)
                    | none => none
                | none => none
              | _ =>
                match parseOffset rest2 with
                | some off => some (hh, mm, ss, 0, some off)
                | none => none
          | none => none
        | _ =>
          match parseOffset rest with
          | some off => some (hh, mm, 0, 0, some off)
          | none => none
    | _, _ => none
  | _ => none

/-- Models `datetime.fromisoformat` (pre-3.11 grammar): a mandatory
`YYYY-MM-DD` date with calendar validation, optionally a one-character
separator and a time part.  Returns `none` where Python raises
`ValueError`. -/
def fromisoformat (s : String) : Option PyDatetime :=
  match s.data with
  | y1 :: y2 :: y3 :: y4 :: '-' :: m1 :: m2 :: '-' :: d1 :: d2 :: rest =>
    if [y1, y2, y3, y4].all Char.isDigit then
      match twoDigits m1 m2, twoDigits d1 d2 with
      | some mo, some dy =>
        let yr := digitVal y1 * 1000 + digitVal y2 * 100 + digitVal y3 * 10 + digitVal y4
        if yr < 1 ∨ mo < 1 ∨ mo > 12 ∨ dy < 1 ∨ dy > daysInMonth yr mo then none
        else
          match rest with
          | [] => some ⟨yr, mo, dy, 0, 0, 0, 0, none⟩
          | _sep :: timeChars =>
            match parseTimePart timeChars with
            | some (hh, mm, ss, us, off) => some ⟨yr, mo, dy, hh, mm, ss, us, off⟩
            | none => none
      | _, _ => none
    else none
  | _ => none

/-- `datetime_str.replace('Z', '+00:00')`. -/
def replaceZ (s : String) : String :=
  String.mk (s.data.flatMap (fun c => if c = 'Z' then "+00:00".data else [c]))

/-- Embeds `date_utils.parse_datetime`; the argument is `Option String`
because callers pass values obtained with `dict.get` (possibly `None`).
The `try/except (ValueError, TypeError)` appears as the `none` branch of
`fromisoformat`. -/
def parse_datetime (datetime_str : Option String) : Option PyDatetime :=
  match datetime_str with
  | none => none
  | some s =>
    if s = "" then none
    else
      match fromisoformat (replaceZ s) with
      | some dt => some (astimezoneUtc dt)
      | none => none

/-- `dt.strftime('%Y-%m-%d')` for the years the code handles. -/
def strftimeDate (dt : PyDatetime) : String :=
  let pad2 := fun (n : Nat) => if n < 10 then "0" ++ toString n else toString n
  let pad4 := fun (n : Nat) =>
    if n < 10 then "000" ++ toString n
    else if n < 100 then "00" ++ toString n
    else if n < 1000 then "0" ++ toString n
    else toString n
  pad4 dt.year ++ "-" ++ pad2 dt.month ++ "-" ++ pad2 dt.day

/-- C10: `parse_datetime` is total and never raises — `None` and the empty
string map to `None`, a string `fromisoformat` rejects maps to `None`
instead of propagating the exception, and every successful parse is
timezone-aware with a UTC offset of zero. -/
theorem C10_parse_datetime_total :
    parse_datetime none = none ∧ parse_datetime (some "") = none ∧
    (∀ s : String, fromisoformat (replaceZ s) = none → parse_datetime (some s) = none) ∧
    (∀ (s : String) (dt : PyDatetime), parse_datetime (some s) = some dt →
      dt.tzOffsetMinutes = some 0) := by
  refine ⟨rfl, rfl, ?_, ?_⟩
  · intro s h
    simp only [parse_datetime]
    by_cases hs : s = ""
    · rw [if_pos hs]
    · rw [if_neg hs, h]
  · intro s dt h
    simp only [parse_datetime] at h
    by_cases hs : s = ""
    · rw [if_pos hs] at h; cases h
    · rw [if_neg hs] at h
      cases hfi : fromisoformat (replaceZ s) with
      | none => rw [hfi] at h; cases h
      | some dt0 =>
        rw [hfi] at h
        have : astimezoneUtc dt0 = dt := Option.some.inj h
        rw [← this]
        rfl

/-- Witness for C10: a concrete malformed string is rejected, and a concrete
UTC-suffixed timestamp parses to an offset-zero datetime. -/
theorem C10_parse_datetime_total_witness :
    parse_datetime (some "not a timestamp") = none ∧
    (⟨2024, 5, 10, 12, 30, 45, 0, some 0⟩ : PyDatetime).tzOffsetMinutes = some 0 :=
  ⟨C10_parse_datetime_total.2.2.1 "not a timestamp" (by decide),
   C10_parse_datetime_total.2.2.2 "2024-05-10T12:30:45Z"
     ⟨2024, 5, 10, 12, 30, 45, 0, some 0⟩ (by decide)⟩


/-! ## Python dict / membership primitives

`pyGet` is `dict.get` (case-sensitive exact key), `pySet` is item
assignment preserving insertion order, `containsSub` is the Python `in`
substring test. -/

def pyGet {α β : Type} [BEq α] (tbl : List (α × β)) (k : α) : Option β :=
  (tbl.find? (fun p => p.1 == k)).map Prod.snd

def pySet {α β : Type} [BEq α] (m : List (α × β)) (k : α) (v : β) : List (α × β) :=
  if (m.find? (fun p => p.1 == k)).isSome then
    m.map (fun p => if p.1 == k then (k, v) else p)
  else m ++ [(k, v)]

def containsSub (haystack needle : List Char) : Bool :=
  (List.range (haystack.length + 1)).any
    (fun i => ((haystack.drop i).take needle.length) == needle)

/-- Python `needle in haystack` on strings. -/
def pyIn (needle haystack : String) : Bool := containsSub haystack.data needle.data

/-! ## Atlassian Document Format (`text_utils._parse_adf_nodes`,
`extract_text_from_adf`; `jira_service._extract_adf_nodes`,
`extract_attachment_refs_from_adf`)

A node carries its `type`, its `text` (empty when the key is absent), its
`attrs.type` / `attrs.id` (empty when absent; only `media` nodes use them)
and its children. -/

inductive AdfNode where
  | mk (type : String) (text : String) (attrsType : String) (attrsId : String)
      (content : List AdfNode)

def AdfNode.nodeType : AdfNode → String
  | .mk ty _ _ _ _ => ty

def AdfNode.nodeText : AdfNode → String
  | .mk _ tx _ _ _ => tx

def AdfNode.children : AdfNode → List AdfNode
  | .mk _ _ _ _ c => c

/-- A comment body / description value: Python `None`-or-empty, a legacy
plain string, or an ADF document (a dict whose `content` is a node list). -/
inductive AdfContent where
  | empty
  | str (s : String)
  | doc (content : List AdfNode)

def blockNodeTypes : List String := ["paragraph", "heading", "blockquote", "listItem"]

/-- Embeds `text_utils._parse_adf_nodes`. -/
def parseAdfNodes : List AdfNode → List String
  | [] => []
  | .mk ty tx _ _ content :: rest =>
    (if ty = "text" then [tx] else if ty = "hardBreak" then ["\n"] else []) ++
    (if content.isEmpty then []
     else parseAdfNodes content ++ (if ty ∈ blockNodeTypes then ["\n"] else [])) ++
    parseAdfNodes rest

/-- Embeds `re.sub(r'\n{2,}', '\n\n', s)`: a run of two or more newlines
becomes exactly two.  The counter tracks the length of the current run. -/
def collapseNlAux : Nat → List Char → List Char
  | _, [] => []
  | k, c :: cs =>
    if c = '\n' then (if k < 2 then ['\n'] else []) ++ collapseNlAux (k + 1) cs
    else c :: collapseNlAux 0 cs

/-- Embeds `text_utils.extract_text_from_adf`. -/
def extract_text_from_adf : AdfContent → String
  | .empty => ""
  | .str s => String.mk (pyStrip s.data)
  | .doc content =>
    String.mk (pyStrip (collapseNlAux 0 (String.join (parseAdfNodes content)).data))

/-- Embeds `jira_service._extract_adf_nodes` for a node list (the dict case
is the singleton list). -/
def extractAdfNodesOfType (target : String) : List AdfNode → List AdfNode
  | [] => []
  | .mk ty tx a1 a2 content :: rest =>
    (if ty = target then [AdfNode.mk ty tx a1 a2 content] else []) ++
    extractAdfNodesOfType target content ++
    extractAdfNodesOfType target rest

/-- Embeds `jira_service.extract_attachment_refs_from_adf` (returning the
ids of the `{'id': ...}` dicts it builds). -/
def extract_attachment_refs_from_adf (adf : AdfContent) : List String :=
  let nodes := match adf with
    | .empty => []
    | .str _ => []
    | .doc content => extractAdfNodesOfType "media" content
  (nodes.filterMap (fun n =>
    match n with
    | .mk _ _ attrsType attrsId _ =>
      if attrsType = "file" ∧ ¬attrsId = "" then some attrsId else none))

/-- Embeds `jira_service.extract_description`: plain text of the
`paragraph` nodes of the description ADF, joined with newlines.  The
`except (KeyError, TypeError)` fallback `str(...)` cannot fire on typed
content. -/
def extract_description (description : AdfContent) : String :=
  match description with
  | .empty => ""
  | .str s => String.mk (pyStrip s.data)
  | .doc content =>
    let paragraphs := content.filterMap (fun item =>
      if item.nodeType = "paragraph" then
        some (String.join (item.children.map AdfNode.nodeText))
      else none)
    String.mk (pyStrip (String.intercalate "\n" paragraphs).data)

/-! ## Translation tables (`src/services/jira_service.py`) -/

def JIRA_STATUS_TO_FRESHDESK : List (String × Nat) :=
  [("Backlog", 2), ("Tarefas Pendentes", 2), ("To Do", 2), ("A Fazer", 2),
   ("In Progress", 3), ("Em andamento", 3), ("Em Análise", 3),
   ("Done", 4), ("Concluído", 4), ("Resolvido", 4), ("Feito", 4),
   ("Closed", 5), ("Fechado", 5)]

def JIRA_PRIORITY_TO_FRESHDESK : List (String × Nat) :=
  [("Lowest", 1), ("Low", 1), ("Baixa", 1),
   ("Medium", 2), ("Média", 2),
   ("High", 3), ("Alta", 3),
   ("Highest", 4), ("Mais alta", 4), ("Urgente", 4)]

/-- `sync_service.DEFAULT_FRESHDESK_TO_JIRA_TRANSITION_MAP`. -/
def DEFAULT_FRESHDESK_TO_JIRA_TRANSITION_MAP : List (Nat × List String) :=
  [(2, ["Backlog", "To Do", "Tarefas Pendentes", "A Fazer", "Lista de Pendências"]),
   (3, ["In Progress", "Em andamento", "Em Análise"]),
   (4, ["Done", "Concluído", "Resolvido", "Feito", "Itens Concluídos"]),
   (5, ["Done", "Concluído", "Resolvido", "Feito", "Closed", "Fechado", "Itens Concluídos"]),
   (6, ["Waiting for Customer", "Esperando Cliente", "Waiting on Customer", "Aguardando Informações"]),
   (7, ["Waiting for Vendor", "Esperando Fornecedor", "Blocked", "Bloqueado"])]

/-- Python `str.lower()` on a string. -/
def pyLower (s : String) : String := String.mk (lowerAll s.data)

/-- The lookup the spec describes for the forward translation tables:
status/priority NAME matched case-insensitively.  Written from the spec
sentence, for comparison with the code's case-sensitive `dict.get`. -/
def specCaseInsensitiveGet (tbl : List (String × Nat)) (k : String) : Option Nat :=
  (tbl.find? (fun p => pyLower p.1 == pyLower k)).map Prod.snd



/-! ## Data model: tickets, mapping entries, external calls

`orchestrator._prepare_client_environment` merges the client config with
defaults; the fields mirror the config keys the sync service reads.
External HTTP traffic is an explicit `Call` trace and responses come from
an `Env`; `api_request` returning `None` (decode failure / missing data)
is an `Option.none` response.  A run in which a network error is raised is
not traced here — it aborts the client run (see the orchestrator section).
-/

structure JiraComment where
  id : Nat
  authorDisplayName : String
  body : AdfContent

structure JiraTicket where
  key : String
  summary : String
  description : AdfContent
  statusName : String
  priorityName : Option String
  comments : List JiraComment
  updated : String
  created : String
  attachmentIds : List String

structure MappingEntry where
  freshdesk_id : Nat
  last_jira_update : Option String
  last_freshdesk_update : Option String
  last_jira_comment_id : Nat
deriving DecidableEq, Repr

/-- The per-client persisted mapping: source key → entry, in insertion
order (a Python dict). -/
abbrev Mapping := List (String × MappingEntry)

structure Attachment where
  filename : String
  content : List Nat
deriving DecidableEq, Repr

inductive Call where
  | getAttachmentDetails (attachmentId : String)
  | downloadAttachment (url : String)
  | updateTicketFields (fdId : Nat) (priority : Nat)
  | addNote (fdId : Nat) (body : String) (attachments : List Attachment)
  | addComment (jiraKey : String) (body : String)
  | getTransitions (jiraKey : String)
  | postTransition (jiraKey : String) (transitionId : String)
  | fetchConversations (fdId : String)
  | createTicket (jiraKey : String) (subject : String) (description : String)
      (priority : Nat) (status : Nat)
deriving DecidableEq, Repr

structure AttachmentDetails where
  filename : Option String
  contentUrl : Option String
deriving DecidableEq, Repr

structure JiraTransition where
  id : String
  name : String
deriving DecidableEq, Repr

structure Conversation where
  bodyText : Option String
  updatedAt : String
  isPrivate : Option Bool
  userName : Option String
deriving DecidableEq, Repr

structure FdTicket where
  id : Nat
  subject : String
  descriptionText : Option String
  description : Option String
  status : Option Nat
  updatedAt : String
deriving DecidableEq, Repr

structure Env where
  attachmentDetails : String → Option AttachmentDetails
  attachmentContent : String → List Nat
  transitionsResp : String → Option (List JiraTransition)
  postTransitionOk : String → String → Bool
  conversations : String → List Conversation
  createTicketResp : JiraTicket → Option Nat
  jiraIssues : List JiraTicket
  fdUpdatedTickets : List FdTicket
  fdCandidates : List FdTicket
  nowDt : PyDatetime
  nowIso : String

structure SyncConfig where
  BOT_COMMENT_TAG : String
  SYNC_COMMENTS : Bool
  SYNC_ATTACHMENTS : Bool
  ENABLE_SMART_MAPPING : Bool
  FIRST_RUN_TIMESTAMP : Option String
  SYNC_DAYS_AGO : Nat
  MAPPING_LOOKBACK_DAYS : Nat
  FRESHDESK_TO_JIRA_TRANSITION_MAP : Option (List (Nat × List String))
deriving DecidableEq, Repr

inductive PyError where
  | typeError
  | keyError
  | attributeError
deriving DecidableEq, Repr

instance {ε α : Type} [DecidableEq ε] [DecidableEq α] : DecidableEq (Except ε α) := fun a b =>
  match a, b with
  | .error e1, .error e2 =>
    if h : e1 = e2 then .isTrue (h ▸ rfl) else
      .isFalse (fun hc => by cases hc; exact h rfl)
  | .ok v1, .ok v2 =>
    if h : v1 = v2 then .isTrue (h ▸ rfl) else
      .isFalse (fun hc => by cases hc; exact h rfl)
  | .error _, .ok _ => .isFalse (fun hc => by cases hc)
  | .ok _, .error _ => .isFalse (fun hc => by cases hc)


/-- First-occurrence deduplication; stands in for the Python `set` built in
`_get_jira_attachments` (whose iteration order is unspecified). -/
def dedupFirst (l : List String) : List String :=
  l.foldl (fun acc x => if acc.contains x then acc else acc ++ [x]) []

/-- Embeds `sync_service._get_jira_attachments`: the general-attachment ids
merged with the ADF media refs, deduplicated; per id a details request,
then (given a usable content URL) a download; failures skip the
attachment. -/
def getJiraAttachments (cfg : SyncConfig) (env : Env) (t : JiraTicket)
    (adf : AdfContent) : List Attachment × List Call :=
  if !cfg.SYNC_ATTACHMENTS then ([], [])
  else
    let allIds := dedupFirst (t.attachmentIds ++ extract_attachment_refs_from_adf adf)
    allIds.foldl (fun acc attachmentId =>
      let calls := acc.2 ++ [Call.getAttachmentDetails attachmentId]
      match env.attachmentDetails attachmentId with
      | none => (acc.1, calls)
      | some details =>
        match details.contentUrl with
        | none => (acc.1, calls)
        | some url =>
          if url = "" then (acc.1, calls)
          else
            let calls := calls ++ [Call.downloadAttachment url]
            let content := env.attachmentContent url
            if content.isEmpty then (acc.1, calls)
            else
              (acc.1 ++ [⟨details.filename.getD ("file_" ++ attachmentId), content⟩], calls))
      ([], [])

/-- The note body `f"{tag}\n**Comentário do Jira por {author}:**\n\n{body}"`. -/
def jiraCommentNoteBody (tag author body : String) : String :=
  tag ++ "\n**Comentário do Jira por " ++ author ++ ":**\n\n" ++ body

/-- Stable ascending insertion by comment id; models
`sorted(all_comments, key=lambda c: int(c['id']))`. -/
def insertComment (x : JiraComment) : List JiraComment → List JiraComment
  | [] => [x]
  | y :: ys => if y.id < x.id then y :: insertComment x ys else x :: y :: ys

def sortCommentsById : List JiraComment → List JiraComment
  | [] => []
  | c :: cs => insertComment c (sortCommentsById cs)

/-- The body of the inner comment loop of
`_sync_jira_to_freshdesk_updates`, threading `(new_max_comment_id, calls)`.
The `try/except (KeyError, IndexError, TypeError)` around extraction cannot
fire on typed content. -/
def syncOneComment (cfg : SyncConfig) (env : Env) (t : JiraTicket) (fdId : Nat)
    (lastId : Nat) (st : Nat × List Call) (c : JiraComment) : Nat × List Call :=
  if lastId < c.id then
    let body := extract_text_from_adf c.body
    if pyIn cfg.BOT_COMMENT_TAG body then st
    else
      let (atts, acalls) := getJiraAttachments cfg env t c.body
      let note := jiraCommentNoteBody cfg.BOT_COMMENT_TAG c.authorDisplayName body
      (if st.1 < c.id then c.id else st.1, st.2 ++ acalls ++ [Call.addNote fdId note atts])
  else st

/-- The comment loop of `_sync_jira_to_freshdesk_updates`: iterate the
comments in ascending id order, returning the final
`new_max_comment_id` and the calls. -/
def syncCommentsPhase (cfg : SyncConfig) (env : Env) (t : JiraTicket) (fdId : Nat)
    (lastId : Nat) : Nat × List Call :=
  (sortCommentsById t.comments).foldl (syncOneComment cfg env t fdId lastId) (lastId, [])

/-- The staleness gate
`if last_sync_time and parse(ticket['fields']['updated']) <= last_sync_time`;
comparing an unparseable `updated` against a parsed stored watermark raises
`TypeError` in Python (`None <= datetime`). -/
def jiraStale (entry : MappingEntry) (t : JiraTicket) : Except PyError Bool :=
  match parse_datetime entry.last_jira_update with
  | none => .ok false
  | some lastSyncTime =>
    match parse_datetime (some t.updated) with
    | none => .error .typeError
    | some updated => .ok (dtLe updated lastSyncTime)

/-- One iteration of the ticket loop of `_sync_jira_to_freshdesk_updates`:
the staleness gate, the priority push, the comment loop, and the watermark
write. -/
def syncJiraTicketStep (cfg : SyncConfig) (env : Env) (mapping : Mapping)
    (t : JiraTicket) : Except PyError (Mapping × List Call) :=
  match pyGet mapping t.key with
  | none => .ok (mapping, [])
  | some entry =>
    match jiraStale entry t with
    | .error e => .error e
    | .ok true => .ok (mapping, [])
    | .ok false =>
      let fdId := entry.freshdesk_id
      let priorityCalls : List Call :=
        match t.priorityName with
        | none => []
        | some pname =>
          match pyGet JIRA_PRIORITY_TO_FRESHDESK pname with
          | some fdPriority => [Call.updateTicketFields fdId fdPriority]
          | none => []
      let cp :=
        if cfg.SYNC_COMMENTS then syncCommentsPhase cfg env t fdId entry.last_jira_comment_id
        else (entry.last_jira_comment_id, [])
      let entry1 :=
        if entry.last_jira_comment_id < cp.1 then { entry with last_jira_comment_id := cp.1 }
        else entry
      let entry2 := { entry1 with last_jira_update := some env.nowIso }
      .ok (pySet mapping t.key entry2, priorityCalls ++ cp.2)

/-- The whole `_sync_jira_to_freshdesk_updates` loop (an exception aborts
the remaining tickets, as in Python). -/
def syncJiraToFreshdeskUpdates (cfg : SyncConfig) (env : Env) :
    List JiraTicket → Mapping → Except PyError (Mapping × List Call)
  | [], mapping => .ok (mapping, [])
  | t :: ts, mapping =>
    match syncJiraTicketStep cfg env mapping t with
    | .error e => .error e
    | .ok (mapping1, calls1) =>
      match syncJiraToFreshdeskUpdates cfg env ts mapping1 with
      | .error e => .error e
      | .ok (mapping2, calls2) => .ok (mapping2, calls1 ++ calls2)



/-! ## `_sync_freshdesk_to_jira_updates` and `jira_service.transition_issue` -/

/-- Embeds `jira_service.transition_issue`: fetch the available
transitions; `None`/keyless data fails; otherwise find the first available
transition whose name equals the candidate case-insensitively and POST its
id, succeeding iff the response is non-`None`.  (The code after the
`if/else` return statements is unreachable and not modelled.) -/
def transition_issue (env : Env) (issueKey : String) (transitionName : String) :
    Bool × List Call :=
  let calls := [Call.getTransitions issueKey]
  match env.transitionsResp issueKey with
  | none => (false, calls)
  | some available =>
    match available.find? (fun tr => pyLower tr.name == pyLower transitionName) with
    | some tr => (env.postTransitionOk issueKey tr.id, calls ++ [Call.postTransition issueKey tr.id])
    | none => (false, calls)

/-- The candidate loop of `_sync_freshdesk_to_jira_updates`: try the
transition names in order, stopping at the first success. -/
def tryTransitions (env : Env) (jiraKey : String) : List String → Bool × List Call
  | [] => (false, [])
  | name :: rest =>
    let (ok, calls) := transition_issue env jiraKey name
    if ok then (true, calls)
    else
      let (ok2, calls2) := tryTransitions env jiraKey rest
      (ok2, calls ++ calls2)

/-- `f"{tag}\n**{note_type} do Freshdesk por {user_name}:**\n\n{body}"`. -/
def fdConvCommentBody (tag noteType userName body : String) : String :=
  tag ++ "\n**" ++ noteType ++ " do Freshdesk por " ++ userName ++ ":**\n\n" ++ body

/-- The gate `if not last_sync or parse(conv['updated_at']) > last_sync`
of the conversation loop; an unparseable `updated_at` compared against a
parsed watermark raises `TypeError`. -/
def convIsNewer (lastSync : Option PyDatetime) (conv : Conversation) :
    Except PyError Bool :=
  match lastSync with
  | none => .ok true
  | some l =>
    match parse_datetime (some conv.updatedAt) with
    | none => .error .typeError
    | some u => .ok (dtLt l u)

/-- The body of the conversation loop: post each conversation entry that
passes `convIsNewer` and does not carry the bot tag; reading
`conv['body_text']` of an entry without that key raises `KeyError`. -/
def syncOneConversation (cfg : SyncConfig) (jiraKey : String)
    (lastSync : Option PyDatetime) (conv : Conversation) :
    Except PyError (List Call) :=
  match convIsNewer lastSync conv with
  | .error e => .error e
  | .ok false => .ok []
  | .ok true =>
    if pyIn cfg.BOT_COMMENT_TAG (conv.bodyText.getD "") then .ok []
    else
      match conv.bodyText with
      | none => .error .keyError
      | some body =>
        let noteType := if conv.isPrivate.getD true then "Nota Privada" else "Resposta Pública"
        let userName := conv.userName.getD "Usuário"
        .ok [Call.addComment jiraKey (fdConvCommentBody cfg.BOT_COMMENT_TAG noteType userName body)]

def syncConversations (cfg : SyncConfig) (jiraKey : String)
    (lastSync : Option PyDatetime) : List Conversation → Except PyError (List Call)
  | [] => .ok []
  | conv :: rest =>
    match syncOneConversation cfg jiraKey lastSync conv with
    | .error e => .error e
    | .ok calls1 =>
      match syncConversations cfg jiraKey lastSync rest with
      | .error e => .error e
      | .ok calls2 => .ok (calls1 ++ calls2)

/-- `{str(v['freshdesk_id']): k for k, v in mapping.items()}`. -/
def buildReverseIndex (mapping : Mapping) : List (String × String) :=
  mapping.foldl (fun acc p => pySet acc (toString p.2.freshdesk_id) p.1) []

/-- The status half of a `_sync_freshdesk_to_jira_updates` iteration: the
candidate transition-name list for the ticket's current status code (none
configured, or an empty list, skips with a log), tried in order by
`tryTransitions`. -/
def statusTransitionCalls (cfg : SyncConfig) (env : Env) (jiraKey : String)
    (statusId : Option Nat) : List Call :=
  let transitionMap :=
    cfg.FRESHDESK_TO_JIRA_TRANSITION_MAP.getD DEFAULT_FRESHDESK_TO_JIRA_TRANSITION_MAP
  let candidates : Option (List String) :=
    match statusId with
    | none => none
    | some st => pyGet transitionMap st
  match candidates with
  | none => []
  | some [] => []
  | some (c :: cs) => (tryTransitions env jiraKey (c :: cs)).2

/-- The target-side staleness gate
`if last_sync and parse(fd_ticket['updated_at']) <= last_sync`. -/
def fdStale (entry : MappingEntry) (ft : FdTicket) : Except PyError Bool :=
  match parse_datetime entry.last_freshdesk_update with
  | none => .ok false
  | some lastSync =>
    match parse_datetime (some ft.updatedAt) with
    | none => .error .typeError
    | some updated => .ok (dtLe updated lastSync)

/-- One iteration of the ticket loop of `_sync_freshdesk_to_jira_updates`:
reverse lookup, staleness gate, status-transition candidates, conversation
sync, watermark write. -/
def syncFdTicketStep (cfg : SyncConfig) (env : Env) (revIndex : List (String × String))
    (mapping : Mapping) (ft : FdTicket) : Except PyError (Mapping × List Call) :=
  let fdIdStr := toString ft.id
  match pyGet revIndex fdIdStr with
  | none => .ok (mapping, [])
  | some jiraKey =>
    match pyGet mapping jiraKey with
    | none => .error .keyError
    | some entry =>
      match fdStale entry ft with
      | .error e => .error e
      | .ok true => .ok (mapping, [])
      | .ok false =>
        let statusCalls := statusTransitionCalls cfg env jiraKey ft.status
        let lastSync := parse_datetime entry.last_freshdesk_update
        let convResult : Except PyError (List Call) :=
          if cfg.SYNC_COMMENTS then
            match syncConversations cfg jiraKey lastSync (env.conversations fdIdStr) with
            | .error e => .error e
            | .ok calls => .ok (Call.fetchConversations fdIdStr :: calls)
          else .ok []
        match convResult with
        | .error e => .error e
        | .ok convCalls =>
          let entry2 := { entry with last_freshdesk_update := some env.nowIso }
          .ok (pySet mapping jiraKey entry2, statusCalls ++ convCalls)

/-- The whole `_sync_freshdesk_to_jira_updates` loop; the reverse index is
built once, before the loop, as in the source. -/
def syncFreshdeskToJiraUpdates (cfg : SyncConfig) (env : Env)
    (freshdeskTickets : List FdTicket) (mapping : Mapping) :
    Except PyError (Mapping × List Call) :=
  let revIndex := buildReverseIndex mapping
  let rec go : List FdTicket → Mapping → Except PyError (Mapping × List Call)
    | [], m => .ok (m, [])
    | ft :: fts, m =>
      match syncFdTicketStep cfg env revIndex m ft with
      | .error e => .error e
      | .ok (m1, calls1) =>
        match go fts m1 with
        | .error e => .error e
        | .ok (m2, calls2) => .ok (m2, calls1 ++ calls2)
  go freshdeskTickets mapping



/-! ## Matching, creation and the cutover gate
(`sync_service._record_match`, `_create_new_ticket`,
`_find_and_map_new_tickets`, `run_sync_for_client`) -/

/-- The mapping entry `_record_match` and `_create_new_ticket` write:
comment counter starts at 0, both watermarks at the current time. -/
def newMappingEntry (fdId : Nat) (nowIso : String) : MappingEntry :=
  ⟨fdId, some nowIso, some nowIso, 0⟩

def recordMatchCommentBody (tag : String) (fdId : Nat) (matchType : String) : String :=
  tag ++ " Ticket mapeado para o Freshdesk ID existente: " ++ toString fdId ++
    " (correspondência por " ++ matchType ++ ")."

/-- Embeds `sync_service._record_match`; returns the updated mapping, the
posted comment, and `(jira_key, str(fd_id))`. -/
def recordMatch (cfg : SyncConfig) (env : Env) (mapping : Mapping)
    (t : JiraTicket) (ft : FdTicket) (matchType : String) :
    Mapping × List Call × String × String :=
  (pySet mapping t.key (newMappingEntry ft.id env.nowIso),
   [Call.addComment t.key (recordMatchCommentBody cfg.BOT_COMMENT_TAG ft.id matchType)],
   t.key, toString ft.id)

def createTicketCommentBody (tag : String) (fdId : Nat) : String :=
  tag ++ " Ticket criado e sincronizado com o Freshdesk. ID: " ++ toString fdId

/-- The translated fields `freshdesk_service.create_ticket` computes:
dict-`get` with fixed defaults — priority 1 (`Low`), status 2 (`Open`). -/
def createTicketPriority (priorityName : Option String) : Nat :=
  match priorityName with
  | none => 1
  | some n => (pyGet JIRA_PRIORITY_TO_FRESHDESK n).getD 1

def createTicketStatus (statusName : String) : Nat :=
  (pyGet JIRA_STATUS_TO_FRESHDESK statusName).getD 2

/-- `jira_service.extract_description(jira_ticket) or "Descrição não
fornecida."`. -/
def creatorDescription (t : JiraTicket) : String :=
  if extract_description t.description = "" then "Descrição não fornecida."
  else extract_description t.description

/-- Embeds `sync_service._create_new_ticket` (with
`freshdesk_service.create_ticket` inlined as a `createTicket` call whose
payload carries the translated fields): on a response with an id, write the
mapping entry and post the confirmation comment; otherwise only log. -/
def createNewTicket (cfg : SyncConfig) (env : Env) (mapping : Mapping)
    (t : JiraTicket) : Mapping × List Call :=
  let (_, acalls) := getJiraAttachments cfg env t t.description
  let createCall := Call.createTicket t.key t.summary (creatorDescription t)
    (createTicketPriority t.priorityName) (createTicketStatus t.statusName)
  match env.createTicketResp t with
  | some fdId =>
    (pySet mapping t.key (newMappingEntry fdId env.nowIso),
     acalls ++ [createCall,
       Call.addComment t.key (createTicketCommentBody cfg.BOT_COMMENT_TAG fdId)])
  | none => (mapping, acalls ++ [createCall])

/-- `dict.setdefault(key, []).append(v)` on a multimap. -/
def multiMapAdd (m : List (String × List FdTicket)) (k : String) (v : FdTicket) :
    List (String × List FdTicket) :=
  match pyGet m k with
  | some lst => pySet m k (lst ++ [v])
  | none => m ++ [(k, [v])]

/-- `ticket.get('description_text', ticket.get('description', ''))`. -/
def fdTicketDescHtml (ticket : FdTicket) : String :=
  match ticket.descriptionText with
  | some d => d
  | none => ticket.description.getD ""

/-- One candidate of the index construction of `_find_and_map_new_tickets`:
tickets already claimed by the mapping are discarded; the title index keys
non-empty normalized subjects; the description index keys normalized
stripped descriptions longer than 20 characters. -/
def bcmStep (mappedFdIds : List String)
    (maps : (List (String × List FdTicket)) × (List (String × List FdTicket)))
    (ticket : FdTicket) :
    (List (String × List FdTicket)) × (List (String × List FdTicket)) :=
  if mappedFdIds.contains (toString ticket.id) then maps
  else
    let normTitle := normalize_text ticket.subject
    let titleMap1 := if ¬normTitle = "" then multiMapAdd maps.1 normTitle ticket else maps.1
    let descHtml := fdTicketDescHtml ticket
    let descMap1 :=
      if ¬descHtml = "" then
        let normDesc := normalize_text (strip_html_tags descHtml)
        if 20 < normDesc.length then multiMapAdd maps.2 normDesc ticket else maps.2
      else maps.2
    (titleMap1, descMap1)

def buildCandidateMaps (mappedFdIds : List String) (fdCandidates : List FdTicket) :
    (List (String × List FdTicket)) × (List (String × List FdTicket)) :=
  fdCandidates.foldl (bcmStep mappedFdIds) ([], [])

/-- State threaded through the two matching passes. -/
structure MatchState where
  mapping : Mapping
  jiraMatchedKeys : List String
  fdMatchedIds : List String
  calls : List Call

/-- Claim the first candidate of `lst` not yet claimed in this run
(`if str(fd_ticket['id']) not in fd_matched_ids: ... break`). -/
def claimFirstUnclaimed (cfg : SyncConfig) (env : Env) (st : MatchState)
    (t : JiraTicket) (lst : List FdTicket) (matchType : String) : MatchState :=
  match lst.find? (fun ft => !st.fdMatchedIds.contains (toString ft.id)) with
  | none => st
  | some ft =>
    let (mapping1, calls1, key, fdIdStr) := recordMatch cfg env st.mapping t ft matchType
    ⟨mapping1, st.jiraMatchedKeys ++ [key], st.fdMatchedIds ++ [fdIdStr],
     st.calls ++ calls1⟩

/-- Pass 1 (title) of the smart matcher. -/
def titlePass (cfg : SyncConfig) (env : Env)
    (titleMap : List (String × List FdTicket)) (unmappedJira : List JiraTicket)
    (st : MatchState) : MatchState :=
  unmappedJira.foldl (fun st t =>
    match pyGet titleMap (normalize_text t.summary) with
    | none => st
    | some lst => claimFirstUnclaimed cfg env st t lst "título") st

/-- Pass 2 (description) of the smart matcher. -/
def descPass (cfg : SyncConfig) (env : Env)
    (descMap : List (String × List FdTicket)) (unmappedJira : List JiraTicket)
    (st : MatchState) : MatchState :=
  unmappedJira.foldl (fun st t =>
    if st.jiraMatchedKeys.contains t.key then st
    else
      let descText := extract_description t.description
      if descText = "" then st
      else
        let normDesc := normalize_text descText
        if 20 < normDesc.length then
          match pyGet descMap normDesc with
          | none => st
          | some lst => claimFirstUnclaimed cfg env st t lst "descrição"
        else st) st

/-- The final creation loop shared by both matcher modes. -/
def createAll (cfg : SyncConfig) (env : Env) (tickets : List JiraTicket)
    (mapping : Mapping) (calls : List Call) : Mapping × List Call :=
  tickets.foldl (fun (acc : Mapping × List Call) t =>
    let (m1, c1) := createNewTicket cfg env acc.1 t
    (m1, acc.2 ++ c1)) (mapping, calls)

/-- The two matching passes of `_find_and_map_new_tickets` over the
candidate index (already-claimed target ids are excluded when the index is
built), starting from the current mapping and empty matched sets. -/
def smartMatchPasses (cfg : SyncConfig) (env : Env) (unmappedJira : List JiraTicket)
    (mapping : Mapping) (fdCandidates : List FdTicket) : MatchState :=
  let mappedFdIds := mapping.map (fun p => toString p.2.freshdesk_id)
  let maps := buildCandidateMaps mappedFdIds fdCandidates
  descPass cfg env maps.2 unmappedJira (titlePass cfg env maps.1 unmappedJira ⟨mapping, [], [], []⟩)

/-- The creation gate of the cutover branch:
`ticket_creation_date and first_run_date and ticket_creation_date >=
first_run_date`. -/
def cutoverCreateGate (firstRunDate : Option PyDatetime) (t : JiraTicket) : Bool :=
  match parse_datetime (some t.created), firstRunDate with
  | some created, some firstRun => dtLe firstRun created
  | _, _ => false

/-- One iteration of the cutover-branch loop: create the ticket only if its
creation time is at/after the recorded cutover instant. -/
def cutoverStep (env : Env) (firstRunDate : Option PyDatetime)
    (acc : SyncConfig × Mapping × List Call) (t : JiraTicket) :
    SyncConfig × Mapping × List Call :=
  if cutoverCreateGate firstRunDate t then
    let r := createNewTicket acc.1 env acc.2.1 t
    (acc.1, r.1, acc.2.2 ++ r.2)
  else acc

/-- Embeds `_find_and_map_new_tickets`.  Returns the possibly-updated
config (the cutover branch records `FIRST_RUN_TIMESTAMP` on its first
run), the new mapping, and the calls. -/
def findAndMapNewTickets (cfg : SyncConfig) (env : Env)
    (jiraTickets : List JiraTicket) (mapping : Mapping) :
    SyncConfig × Mapping × List Call :=
  let unmappedJira := jiraTickets.filter (fun t => (pyGet mapping t.key).isNone)
  if unmappedJira.isEmpty then (cfg, mapping, [])
  else if cfg.ENABLE_SMART_MAPPING then
    let fdCandidates := env.fdCandidates
    if fdCandidates.isEmpty then
      let (m1, c1) := createAll cfg env unmappedJira mapping []
      (cfg, m1, c1)
    else
      let st2 := smartMatchPasses cfg env unmappedJira mapping fdCandidates
      let toCreate := unmappedJira.filter (fun t => !st2.jiraMatchedKeys.contains t.key)
      let (m1, c1) := createAll cfg env toCreate st2.mapping st2.calls
      (cfg, m1, c1)
  else
    let (cfg1, firstRunTimestampStr) :=
      match cfg.FIRST_RUN_TIMESTAMP with
      | some ts => (cfg, ts)
      | none => ({ cfg with FIRST_RUN_TIMESTAMP := some env.nowIso }, env.nowIso)
    let firstRunDate := parse_datetime (some firstRunTimestampStr)
    unmappedJira.foldl (cutoverStep env firstRunDate) (cfg1, mapping, [])

/-! ## Fetches and `run_sync_for_client` -/

/-- JQL `field >= 'YYYY-MM-DD'`: the date literal denotes the start of that
day; an unparseable field value never matches. -/
def jqlFieldSinceDate (dateStr : String) (fieldValue : String) : Bool :=
  match fromisoformat dateStr, parse_datetime (some fieldValue) with
  | some dayStart, some v => dtLe (astimezoneUtc dayStart) v
  | _, _ => false

/-- Embeds `jira_service.fetch_updated_tickets`: the project's issues
filtered by the JQL `updated >= since` and, when given, `created >=
created_since`. -/
def fetchUpdatedJiraTickets (env : Env) (sinceDateStr : String)
    (createdSinceStr : Option String) : List JiraTicket :=
  env.jiraIssues.filter (fun t =>
    jqlFieldSinceDate sinceDateStr t.updated &&
      (match createdSinceStr with
       | none => true
       | some d => jqlFieldSinceDate d t.created))

/-- Embeds `run_sync_for_client`: compute the sync window and the cutover
fetch filter, fetch both sides, and run the three phases in order.
`parse_datetime(...)` returning `None` for a recorded cutover timestamp
makes `.strftime` raise `AttributeError`. -/
def runSyncForClient (cfg : SyncConfig) (env : Env) (mapping : Mapping) :
    Except PyError (SyncConfig × Mapping × List Call) :=
  let sinceDateStr := strftimeDate (subDays env.nowDt cfg.SYNC_DAYS_AGO)
  let createdSinceFilter : Except PyError (Option String) :=
    if !cfg.ENABLE_SMART_MAPPING then
      match cfg.FIRST_RUN_TIMESTAMP with
      | none => .ok none
      | some ts =>
        match parse_datetime (some ts) with
        | none => .error .attributeError
        | some dt => .ok (some (strftimeDate dt))
    else .ok none
  match createdSinceFilter with
  | .error e => .error e
  | .ok createdSince =>
    let jiraTickets := fetchUpdatedJiraTickets env sinceDateStr createdSince
    let freshdeskTickets := env.fdUpdatedTickets
    if jiraTickets.isEmpty && freshdeskTickets.isEmpty then .ok (cfg, mapping, [])
    else
      match syncJiraToFreshdeskUpdates cfg env jiraTickets mapping with
      | .error e => .error e
      | .ok (mapping1, calls1) =>
        match syncFreshdeskToJiraUpdates cfg env freshdeskTickets mapping1 with
        | .error e => .error e
        | .ok (mapping2, calls2) =>
          let (cfg1, mapping3, calls3) := findAndMapNewTickets cfg env jiraTickets mapping2
          .ok (cfg1, mapping3, calls1 ++ calls2 ++ calls3)



/-! ## `src/orchestrator.py`

`process_client` loads the config and mapping (a missing or corrupt mapping
file degrades to an empty mapping), runs the sync inside `try`, and only on
success persists the mapping (`_save_mapping` skips the write when the
in-memory mapping is empty) and the amended config; the `except` clause
logs and falls through, so `main` continues with the next client.  The
run itself is abstracted as a function from the loaded mapping to an
`Except` outcome, instantiable with `runSyncForClient`; the config file
write is not modelled. -/

def processClient (runSyncFn : Mapping → Except PyError Mapping)
    (file : Option Mapping) : Option Mapping :=
  let loaded := file.getD []
  match runSyncFn loaded with
  | .ok m => if m.isEmpty then file else some m
  | .error _ => file

structure Client where
  name : String
  runSyncFn : Mapping → Except PyError Mapping

/-- Per-client persisted mapping files, keyed by client directory name. -/
abbrev FileStore := List (String × Option Mapping)

/-- The client loop of `orchestrator.main`. -/
def mainLoop (clients : List Client) (files : FileStore) : FileStore :=
  clients.foldl (fun fs c =>
    pySet fs c.name (processClient c.runSyncFn ((pyGet fs c.name).getD none))) files



/-! ## Shared concrete fixtures for witnesses -/

def envNoop : Env where
  attachmentDetails := fun _ => none
  attachmentContent := fun _ => []
  transitionsResp := fun _ => none
  postTransitionOk := fun _ _ => false
  conversations := fun _ => []
  createTicketResp := fun _ => none
  jiraIssues := []
  fdUpdatedTickets := []
  fdCandidates := []
  nowDt := ⟨2024, 6, 1, 0, 0, 0, 0, some 0⟩
  nowIso := "2024-06-01T00:00:00+00:00"

def cfgBase : SyncConfig where
  BOT_COMMENT_TAG := "[SyncBot]"
  SYNC_COMMENTS := true
  SYNC_ATTACHMENTS := false
  ENABLE_SMART_MAPPING := true
  FIRST_RUN_TIMESTAMP := none
  SYNC_DAYS_AGO := 1
  MAPPING_LOOKBACK_DAYS := 30
  FRESHDESK_TO_JIRA_TRANSITION_MAP := none

def entryT0 : MappingEntry :=
  ⟨77, some "2024-05-10T12:00:00+00:00", some "2024-05-10T12:00:00+00:00", 3⟩

def mappingT0 : Mapping := [("PROJ-1", entryT0)]

def ticketT0 : JiraTicket where
  key := "PROJ-1"
  summary := "Login fails"
  description := .empty
  statusName := "Backlog"
  priorityName := some "High"
  comments := [⟨5, "Alice", .str "hello"⟩]
  updated := "2024-05-10T12:00:00+00:00"
  created := "2024-05-01T00:00:00+00:00"
  attachmentIds := []

/-! ## Claim theorems -/

/-- C1: a fetched source ticket present in the mapping whose own
last-modified time is not strictly greater than the stored source
watermark is skipped entirely: the source→target step performs no external
calls and returns the mapping unchanged — in particular the entry keeps
its watermarks and comment-sequence number. -/
theorem C1_stale_ticket_skipped (cfg : SyncConfig) (env : Env) (mapping : Mapping)
    (t : JiraTicket) (entry : MappingEntry) (lastSync updated : PyDatetime)
    (hm : pyGet mapping t.key = some entry)
    (hL : parse_datetime entry.last_jira_update = some lastSync)
    (hU : parse_datetime (some t.updated) = some updated)
    (hle : dtLe updated lastSync = true) :
    syncJiraTicketStep cfg env mapping t = .ok (mapping, []) := by
  simp only [syncJiraTicketStep, jiraStale, hm, hL, hU, hle]

/-- Witness for C1, realizing the spec's Example B: the fetch returns the
mapped ticket with modification time exactly equal to the stored watermark
T0; no calls occur and the mapping (watermark T0, comment counter 3) is
returned unchanged. -/
theorem C1_stale_ticket_skipped_witness :
    syncJiraTicketStep cfgBase envNoop mappingT0 ticketT0 = .ok (mappingT0, []) :=
  C1_stale_ticket_skipped cfgBase envNoop mappingT0 ticketT0 entryT0
    ⟨2024, 5, 10, 12, 0, 0, 0, some 0⟩ ⟨2024, 5, 10, 12, 0, 0, 0, some 0⟩
    (by decide) (by decide) (by decide) (by decide)



/-! ### Support lemmas for loop freedom (C2) -/

theorem mem_insertComment {x y : JiraComment} :
    ∀ {l : List JiraComment}, y ∈ insertComment x l → y = x ∨ y ∈ l := by
  intro l
  induction l with
  | nil => intro h; simp [insertComment] at h; exact Or.inl h
  | cons z zs ih =>
    intro h
    unfold insertComment at h
    by_cases hz : z.id < x.id
    · rw [if_pos hz] at h
      rcases List.mem_cons.mp h with h1 | h1
      · exact Or.inr (List.mem_cons.mpr (Or.inl h1))
      · rcases ih h1 with h2 | h2
        · exact Or.inl h2
        · exact Or.inr (List.mem_cons.mpr (Or.inr h2))
    · rw [if_neg hz] at h
      rcases List.mem_cons.mp h with h1 | h1
      · exact Or.inl h1
      · exact Or.inr h1

theorem mem_sortCommentsById {y : JiraComment} :
    ∀ {l : List JiraComment}, y ∈ sortCommentsById l → y ∈ l := by
  intro l
  induction l with
  | nil => intro h; exact h
  | cons z zs ih =>
    intro h
    rcases mem_insertComment (l := sortCommentsById zs) h with h1 | h1
    · exact h1 ▸ List.mem_cons_self _ _
    · exact List.mem_cons_of_mem _ (ih h1)

/-- A `foldl` whose step only ever appends calls satisfying `P` preserves
"every call satisfies `P`". -/
theorem foldl_calls_invariant {α σ : Type} (P : Call → Prop) (f : σ → α → σ)
    (proj : σ → List Call) :
    ∀ (l : List α) (s : σ),
      (∀ s0, ∀ a ∈ l, ∀ c ∈ proj (f s0 a), c ∈ proj s0 ∨ P c) →
      (∀ c ∈ proj s, P c) → ∀ c ∈ proj (l.foldl f s), P c := by
  intro l
  induction l with
  | nil => intro s _ hs c hc; exact hs c hc
  | cons a as ih =>
    intro s hstep hs c hc
    refine ih (f s a) (fun s0 b hb => hstep s0 b (List.mem_cons_of_mem _ hb)) ?_ c hc
    intro d hd
    rcases hstep s a (List.mem_cons_self _ _) d hd with h1 | h1
    · exact hs d h1
    · exact h1

theorem getJiraAttachments_calls (cfg : SyncConfig) (env : Env) (t : JiraTicket)
    (adf : AdfContent) :
    ∀ call ∈ (getJiraAttachments cfg env t adf).2,
      (∃ i, call = Call.getAttachmentDetails i) ∨ ∃ u, call = Call.downloadAttachment u := by
  unfold getJiraAttachments
  by_cases hs : !cfg.SYNC_ATTACHMENTS
  · rw [if_pos hs]; intro call hc; simp at hc
  · rw [if_neg hs]
    apply foldl_calls_invariant
      (fun call => (∃ i, call = Call.getAttachmentDetails i) ∨ ∃ u, call = Call.downloadAttachment u)
    · intro s0 a _ c hc
      dsimp only at hc
      cases hd : env.attachmentDetails a with
      | none =>
        rw [hd] at hc
        rcases List.mem_append.mp hc with h1 | h1
        · exact Or.inl h1
        · exact Or.inr (Or.inl ⟨a, by simpa using h1⟩)
      | some details =>
        rw [hd] at hc
        dsimp only at hc
        cases hurl : details.contentUrl with
        | none =>
          rw [hurl] at hc
          dsimp only at hc
          rcases List.mem_append.mp hc with h1 | h1
          · exact Or.inl h1
          · exact Or.inr (Or.inl ⟨a, by simpa using h1⟩)
        | some url =>
          rw [hurl] at hc
          dsimp only at hc
          by_cases hue : url = ""
          · rw [if_pos hue] at hc
            rcases List.mem_append.mp hc with h1 | h1
            · exact Or.inl h1
            · exact Or.inr (Or.inl ⟨a, by simpa using h1⟩)
          · rw [if_neg hue] at hc
            by_cases hce : (env.attachmentContent url).isEmpty
            · rw [if_pos hce] at hc
              rcases List.mem_append.mp hc with h1 | h1
              · rcases List.mem_append.mp h1 with h2 | h2
                · exact Or.inl h2
                · exact Or.inr (Or.inl ⟨a, by simpa using h2⟩)
              · exact Or.inr (Or.inr ⟨url, by simpa using h1⟩)
            · rw [if_neg hce] at hc
              rcases List.mem_append.mp hc with h1 | h1
              · rcases List.mem_append.mp h1 with h2 | h2
                · exact Or.inl h2
                · exact Or.inr (Or.inl ⟨a, by simpa using h2⟩)
              · exact Or.inr (Or.inr ⟨url, by simpa using h1⟩)
    · intro c hc; simp at hc

/-- Every `addNote` the comment loop emits stems from a comment of the
ticket whose extracted body does not contain the bot tag. -/
theorem syncCommentsPhase_addNote (cfg : SyncConfig) (env : Env) (t : JiraTicket)
    (fdId lastId : Nat) :
    ∀ call ∈ (syncCommentsPhase cfg env t fdId lastId).2,
      ∀ fd body atts, call = Call.addNote fd body atts →
        ∃ c ∈ t.comments,
          pyIn cfg.BOT_COMMENT_TAG (extract_text_from_adf c.body) = false ∧
          fd = fdId ∧
          body = jiraCommentNoteBody cfg.BOT_COMMENT_TAG c.authorDisplayName
            (extract_text_from_adf c.body) := by
  unfold syncCommentsPhase
  apply foldl_calls_invariant
  · intro s0 a ha c hc
    unfold syncOneComment at hc
    by_cases hgt : lastId < a.id
    · rw [if_pos hgt] at hc
      by_cases htag : pyIn cfg.BOT_COMMENT_TAG (extract_text_from_adf a.body) = true
      · rw [if_pos htag] at hc
        exact Or.inl hc
      · rw [if_neg htag] at hc
        dsimp only at hc
        rcases List.mem_append.mp hc with h1 | h1
        · rcases List.mem_append.mp h1 with h2 | h2
          · exact Or.inl h2
          · right
            intro fd body atts heq
            rcases getJiraAttachments_calls cfg env t a.body c h2 with ⟨i, hi⟩ | ⟨u, hu⟩
            · rw [hi] at heq; cases heq
            · rw [hu] at heq; cases heq
        · right
          intro fd body atts heq
          have hc2 : c = Call.addNote fdId
              (jiraCommentNoteBody cfg.BOT_COMMENT_TAG a.authorDisplayName
                (extract_text_from_adf a.body))
              (getJiraAttachments cfg env t a.body).1 := by simpa using h1
          rw [hc2] at heq
          injection heq with e1 e2 e3
          refine ⟨a, mem_sortCommentsById ha, ?_, e1.symm, e2.symm⟩
          simpa using htag
    · rw [if_neg hgt] at hc
      exact Or.inl hc
  · intro c hc; simp at hc


theorem transition_issue_calls (env : Env) (key name : String) :
    ∀ c ∈ (transition_issue env key name).2,
      (∃ k, c = Call.getTransitions k) ∨ ∃ k i, c = Call.postTransition k i := by
  unfold transition_issue
  cases htr : env.transitionsResp key with
  | none =>
    intro c hc
    exact Or.inl ⟨key, by simpa using hc⟩
  | some available =>
    dsimp only
    cases hf : available.find? (fun tr => pyLower tr.name == pyLower name) with
    | none =>
      intro c hc
      exact Or.inl ⟨key, by simpa using hc⟩
    | some tr =>
      intro c hc
      rcases List.mem_append.mp hc with h1 | h1
      · exact Or.inl ⟨key, by simpa using h1⟩
      · exact Or.inr ⟨key, tr.id, by simpa using h1⟩

theorem tryTransitions_calls (env : Env) (key : String) :
    ∀ (cands : List String), ∀ c ∈ (tryTransitions env key cands).2,
      (∃ k, c = Call.getTransitions k) ∨ ∃ k i, c = Call.postTransition k i := by
  intro cands
  induction cands with
  | nil => intro c hc; simp [tryTransitions] at hc
  | cons name rest ih =>
    intro c hc
    unfold tryTransitions at hc
    dsimp only at hc
    by_cases hok : (transition_issue env key name).1 = true
    · rw [if_pos hok] at hc
      exact transition_issue_calls env key name c hc
    · rw [if_neg hok] at hc
      dsimp only at hc
      rcases List.mem_append.mp hc with h1 | h1
      · exact transition_issue_calls env key name c h1
      · exact ih c h1

/-- Outcomes of one conversation iteration that return normally: either
nothing is posted, or the entry is untagged and exactly its wrapped body is
posted. -/
theorem syncOneConversation_ok (cfg : SyncConfig) (key : String)
    (lastSync : Option PyDatetime) (conv : Conversation) (calls : List Call)
    (h : syncOneConversation cfg key lastSync conv = .ok calls) :
    calls = [] ∨ ∃ b, conv.bodyText = some b ∧ pyIn cfg.BOT_COMMENT_TAG b = false ∧
      calls = [Call.addComment key (fdConvCommentBody cfg.BOT_COMMENT_TAG
        (if conv.isPrivate.getD true then "Nota Privada" else "Resposta Pública")
        (conv.userName.getD "Usuário") b)] := by
  unfold syncOneConversation at h
  cases hn : convIsNewer lastSync conv with
  | error e => rw [hn] at h; cases h
  | ok newer =>
    rw [hn] at h
    cases newer with
    | false => exact Or.inl (Except.ok.inj h).symm
    | true =>
      dsimp only at h
      by_cases htag : pyIn cfg.BOT_COMMENT_TAG (conv.bodyText.getD "") = true
      · rw [if_pos htag] at h
        exact Or.inl (Except.ok.inj h).symm
      · rw [if_neg htag] at h
        cases hb : conv.bodyText with
        | none => rw [hb] at h; cases h
        | some b =>
          rw [hb] at h
          dsimp only at h
          right
          refine ⟨b, rfl, ?_, (Except.ok.inj h).symm⟩
          rw [hb] at htag
          simpa using htag

theorem syncConversations_addComment (cfg : SyncConfig) (key : String)
    (lastSync : Option PyDatetime) :
    ∀ (convs : List Conversation) (calls : List Call),
      syncConversations cfg key lastSync convs = .ok calls →
      ∀ c ∈ calls, ∀ k body, c = Call.addComment k body →
        ∃ conv ∈ convs, ∃ b, conv.bodyText = some b ∧
          pyIn cfg.BOT_COMMENT_TAG b = false ∧ k = key ∧
          body = fdConvCommentBody cfg.BOT_COMMENT_TAG
            (if conv.isPrivate.getD true then "Nota Privada" else "Resposta Pública")
            (conv.userName.getD "Usuário") b := by
  intro convs
  induction convs with
  | nil =>
    intro calls h c hc
    cases h
    simp at hc
  | cons conv rest ih =>
    intro calls h c hc k body heq
    unfold syncConversations at h
    cases h1 : syncOneConversation cfg key lastSync conv with
    | error e => rw [h1] at h; cases h
    | ok calls1 =>
      rw [h1] at h
      dsimp only at h
      cases h2 : syncConversations cfg key lastSync rest with
      | error e => rw [h2] at h; cases h
      | ok calls2 =>
        rw [h2] at h
        dsimp only at h
        have hcalls : calls = calls1 ++ calls2 := (Except.ok.inj h).symm
        subst hcalls
        rcases List.mem_append.mp hc with hm | hm
        · rcases syncOneConversation_ok cfg key lastSync conv calls1 h1 with h3 | ⟨b, hb, htag, h3⟩
          · rw [h3] at hm; simp at hm
          · rw [h3] at hm
            have hc1 : c = Call.addComment key (fdConvCommentBody cfg.BOT_COMMENT_TAG
                (if conv.isPrivate.getD true then "Nota Privada" else "Resposta Pública")
                (conv.userName.getD "Usuário") b) := by simpa using hm
            rw [hc1] at heq
            injection heq with e1 e2
            exact ⟨conv, List.mem_cons_self _ _, b, hb, htag, e1.symm, e2.symm⟩
        · rcases ih calls2 h2 c hm k body heq with ⟨cv, hcv, rest2⟩
          exact ⟨cv, List.mem_cons_of_mem _ hcv, rest2⟩


theorem statusTransitionCalls_shape (cfg : SyncConfig) (env : Env) (jiraKey : String)
    (statusId : Option Nat) :
    ∀ c ∈ statusTransitionCalls cfg env jiraKey statusId,
      (∃ k, c = Call.getTransitions k) ∨ ∃ k i, c = Call.postTransition k i := by
  unfold statusTransitionCalls
  dsimp only
  cases hst : (match statusId with
      | none => none
      | some st =>
        pyGet (cfg.FRESHDESK_TO_JIRA_TRANSITION_MAP.getD DEFAULT_FRESHDESK_TO_JIRA_TRANSITION_MAP) st :
      Option (List String)) with
  | none => intro c hc; simp at hc
  | some cands =>
    cases cands with
    | nil => intro c hc; simp at hc
    | cons x xs => exact tryTransitions_calls env jiraKey (x :: xs)

/-- C2: loop freedom.  Every note the source→target step posts stems from a
source comment whose extracted body does not contain the bot tag (a tagged
comment is skipped without posting), and every comment the target→source
step posts stems from a conversation entry whose body does not contain the
bot tag (a tagged entry is never posted). -/
theorem C2_loop_freedom :
    (∀ (cfg : SyncConfig) (env : Env) (mapping : Mapping) (t : JiraTicket)
       (mp : Mapping) (calls : List Call),
      syncJiraTicketStep cfg env mapping t = .ok (mp, calls) →
      ∀ fd body atts, Call.addNote fd body atts ∈ calls →
        ∃ cm ∈ t.comments,
          pyIn cfg.BOT_COMMENT_TAG (extract_text_from_adf cm.body) = false ∧
          body = jiraCommentNoteBody cfg.BOT_COMMENT_TAG cm.authorDisplayName
            (extract_text_from_adf cm.body)) ∧
    (∀ (cfg : SyncConfig) (env : Env) (revIndex : List (String × String))
       (mapping : Mapping) (ft : FdTicket) (mp : Mapping) (calls : List Call),
      syncFdTicketStep cfg env revIndex mapping ft = .ok (mp, calls) →
      ∀ k body, Call.addComment k body ∈ calls →
        ∃ conv ∈ env.conversations (toString ft.id), ∃ b,
          conv.bodyText = some b ∧ pyIn cfg.BOT_COMMENT_TAG b = false ∧
          body = fdConvCommentBody cfg.BOT_COMMENT_TAG
            (if conv.isPrivate.getD true then "Nota Privada" else "Resposta Pública")
            (conv.userName.getD "Usuário") b) := by
  constructor
  · intro cfg env mapping t mp calls h fd body atts hmem
    unfold syncJiraTicketStep at h
    cases hg : pyGet mapping t.key with
    | none =>
      rw [hg] at h
      cases h
      simp at hmem
    | some entry =>
      rw [hg] at h
      dsimp only at h
      cases hs : jiraStale entry t with
      | error e => rw [hs] at h; cases h
      | ok stale =>
        rw [hs] at h
        cases stale with
        | true => cases h; simp at hmem
        | false =>
          dsimp only at h
          cases h
          rcases List.mem_append.mp hmem with h1 | h1
          · exfalso
            cases hp : t.priorityName with
            | none => rw [hp] at h1; simp at h1
            | some pname =>
              rw [hp] at h1
              dsimp only at h1
              cases hq : pyGet JIRA_PRIORITY_TO_FRESHDESK pname with
              | none => rw [hq] at h1; simp at h1
              | some fdPriority => rw [hq] at h1; simp at h1
          · by_cases hsc : cfg.SYNC_COMMENTS = true
            · rw [if_pos hsc] at h1
              rcases syncCommentsPhase_addNote cfg env t entry.freshdesk_id
                  entry.last_jira_comment_id _ h1 fd body atts rfl with
                ⟨cm, hcm, htag, _, hbody⟩
              exact ⟨cm, hcm, htag, hbody⟩
            · rw [if_neg hsc] at h1
              simp at h1
  · intro cfg env revIndex mapping ft mp calls h k body hmem
    unfold syncFdTicketStep at h
    dsimp only at h
    cases hg : pyGet revIndex (toString ft.id) with
    | none =>
      rw [hg] at h
      cases h
      simp at hmem
    | some jiraKey =>
      rw [hg] at h
      dsimp only at h
      cases hme : pyGet mapping jiraKey with
      | none => rw [hme] at h; cases h
      | some entry =>
        rw [hme] at h
        dsimp only at h
        cases hs : fdStale entry ft with
        | error e => rw [hs] at h; cases h
        | ok stale =>
          rw [hs] at h
          cases stale with
          | true => cases h; simp at hmem
          | false =>
            dsimp only at h
            by_cases hsc : cfg.SYNC_COMMENTS = true
            · rw [if_pos hsc] at h
              cases hcv : syncConversations cfg jiraKey
                  (parse_datetime entry.last_freshdesk_update)
                  (env.conversations (toString ft.id)) with
              | error e => rw [hcv] at h; cases h
              | ok convCalls =>
                rw [hcv] at h
                dsimp only at h
                cases h
                rcases List.mem_append.mp hmem with h1 | h1
                · exfalso
                  rcases statusTransitionCalls_shape cfg env jiraKey ft.status _ h1 with
                    ⟨k2, hk⟩ | ⟨k2, i2, hk⟩ <;> cases hk
                · rcases List.mem_cons.mp h1 with h2 | h2
                  · cases h2
                  · rcases syncConversations_addComment cfg jiraKey
                        (parse_datetime entry.last_freshdesk_update)
                        (env.conversations (toString ft.id)) convCalls hcv _ h2 k body rfl with
                      ⟨conv, hconv, b, hb, htag, _, hbody⟩
                    exact ⟨conv, hconv, b, hb, htag, hbody⟩
            · rw [if_neg hsc] at h
              dsimp only at h
              cases h
              rcases List.mem_append.mp hmem with h1 | h1
              · exfalso
                rcases statusTransitionCalls_shape cfg env jiraKey ft.status _ h1 with
                  ⟨k2, hk⟩ | ⟨k2, i2, hk⟩ <;> cases hk
              · simp at h1


def entryC2 : MappingEntry :=
  ⟨88, some "2024-05-01T00:00:00+00:00", some "2024-05-01T00:00:00+00:00", 0⟩

def mappingC2 : Mapping := [("PROJ-2", entryC2)]

/-- A mapped ticket with one bot-tagged comment (id 4) and one human
comment (id 5), modified after the stored watermark. -/
def ticketC2 : JiraTicket where
  key := "PROJ-2"
  summary := "x"
  description := .empty
  statusName := "Backlog"
  priorityName := none
  comments := [⟨4, "Bot", .str "[SyncBot] echo"⟩, ⟨5, "Alice", .str "hello"⟩]
  updated := "2024-05-10T12:00:00+00:00"
  created := "2024-05-01T00:00:00+00:00"
  attachmentIds := []

def envC2 : Env := { envNoop with conversations := fun s => if s = "9" then
  [⟨some "[SyncBot] echoed", "2024-05-10T13:00:00+00:00", some true, some "Bot"⟩,
   ⟨some "customer reply", "2024-05-10T13:00:00+00:00", some false, some "Carol"⟩] else [] }

def entryFd : MappingEntry :=
  ⟨9, some "2024-05-01T00:00:00+00:00", some "2024-05-01T00:00:00+00:00", 0⟩

def mappingFd : Mapping := [("PROJ-3", entryFd)]

def ftC2 : FdTicket := ⟨9, "subj", none, none, none, "2024-05-10T12:00:00+00:00"⟩

/-- Witness for C2: on concrete runs in which a bot-tagged comment (resp.
conversation entry) is present, the only posted note (resp. comment) is
traced back to the untagged item. -/
theorem C2_loop_freedom_witness :
    (∃ cm ∈ ticketC2.comments,
      pyIn cfgBase.BOT_COMMENT_TAG (extract_text_from_adf cm.body) = false ∧
      "[SyncBot]\n**Comentário do Jira por Alice:**\n\nhello" =
        jiraCommentNoteBody cfgBase.BOT_COMMENT_TAG cm.authorDisplayName
          (extract_text_from_adf cm.body)) ∧
    (∃ conv ∈ envC2.conversations (toString ftC2.id), ∃ b,
      conv.bodyText = some b ∧ pyIn cfgBase.BOT_COMMENT_TAG b = false ∧
      "[SyncBot]\n**Resposta Pública do Freshdesk por Carol:**\n\ncustomer reply" =
        fdConvCommentBody cfgBase.BOT_COMMENT_TAG
          (if conv.isPrivate.getD true then "Nota Privada" else "Resposta Pública")
          (conv.userName.getD "Usuário") b) :=
  ⟨C2_loop_freedom.1 cfgBase envNoop mappingC2 ticketC2
      [("PROJ-2", ⟨88, some "2024-06-01T00:00:00+00:00",
        some "2024-05-01T00:00:00+00:00", 5⟩)]
      [Call.addNote 88 "[SyncBot]\n**Comentário do Jira por Alice:**\n\nhello" []]
      (by decide) 88 "[SyncBot]\n**Comentário do Jira por Alice:**\n\nhello" []
      (by decide),
   C2_loop_freedom.2 cfgBase envC2 (buildReverseIndex mappingFd) mappingFd ftC2
      [("PROJ-3", ⟨9, some "2024-05-01T00:00:00+00:00",
        some "2024-06-01T00:00:00+00:00", 0⟩)]
      [Call.fetchConversations "9",
       Call.addComment "PROJ-3"
         "[SyncBot]\n**Resposta Pública do Freshdesk por Carol:**\n\ncustomer reply"]
      (by decide) "PROJ-3"
      "[SyncBot]\n**Resposta Pública do Freshdesk por Carol:**\n\ncustomer reply"
      (by decide)⟩


/-! ### C6: ordered transition candidates -/

def envC6 : Env := { envNoop with
  transitionsResp := fun k => if k = "PROJ-6" then
    some [⟨"31", "done"⟩, ⟨"7", "Backlog"⟩] else none
  postTransitionOk := fun k i => k = "PROJ-6" && i = "31" }

/-- Counterexample to C6 as stated: the candidate `"Done"` is accepted for
a ticket that exposes no transition named exactly `"Done"` (only `"done"`)
— `transition_issue` matches names case-insensitively, so acceptance does
not require a transition of that exact name. -/
theorem C6_counterexample :
    (transition_issue envC6 "PROJ-6" "Done").1 = true ∧
    ((envC6.transitionsResp "PROJ-6").getD []).all
      (fun tr => !(tr.name = "Done")) = true := by decide

/-- C6 (amended: "exact name" weakened to "exact name up to letter case"):
during target→source propagation the configured candidates are tried
strictly in list order; a candidate is accepted only if the ticket
currently exposes a transition whose name equals it case-insensitively and
the POST succeeds; the first accepted candidate is applied and no later
candidate is tried; with no candidate list configured for the status code
(or an empty one) the status change is skipped; if every candidate fails,
no transition is applied and the status is left unsynced for the run. -/
theorem C6_transition_candidates_in_order :
    (∀ (env : Env) (k name : String), (transition_issue env k name).1 = true →
      ∃ tr ∈ (env.transitionsResp k).getD [],
        pyLower tr.name = pyLower name ∧ env.postTransitionOk k tr.id = true) ∧
    (∀ (env : Env) (k n : String) (pre post : List String),
      (∀ m ∈ pre, (transition_issue env k m).1 = false) →
      (transition_issue env k n).1 = true →
      tryTransitions env k (pre ++ n :: post) =
        (true, pre.flatMap (fun m => (transition_issue env k m).2) ++
          (transition_issue env k n).2)) ∧
    (∀ (env : Env) (k : String) (cands : List String),
      (∀ m ∈ cands, (transition_issue env k m).1 = false) →
      tryTransitions env k cands =
        (false, cands.flatMap (fun m => (transition_issue env k m).2))) ∧
    (∀ (cfg : SyncConfig) (env : Env) (k : String),
      statusTransitionCalls cfg env k none = []) ∧
    (∀ (cfg : SyncConfig) (env : Env) (k : String) (st : Nat),
      pyGet (cfg.FRESHDESK_TO_JIRA_TRANSITION_MAP.getD
        DEFAULT_FRESHDESK_TO_JIRA_TRANSITION_MAP) st = none →
      statusTransitionCalls cfg env k (some st) = []) ∧
    (∀ (cfg : SyncConfig) (env : Env) (k : String) (st : Nat),
      pyGet (cfg.FRESHDESK_TO_JIRA_TRANSITION_MAP.getD
        DEFAULT_FRESHDESK_TO_JIRA_TRANSITION_MAP) st = some [] →
      statusTransitionCalls cfg env k (some st) = []) := by
  refine ⟨?_, ?_, ?_, ?_, ?_, ?_⟩
  · intro env k name h
    unfold transition_issue at h
    cases htr : env.transitionsResp k with
    | none => rw [htr] at h; cases h
    | some available =>
      rw [htr] at h
      dsimp only at h
      cases hf : available.find? (fun tr => pyLower tr.name == pyLower name) with
      | none => rw [hf] at h; cases h
      | some tr =>
        rw [hf] at h
        refine ⟨tr, ?_, ?_, h⟩
        · simpa [htr] using List.mem_of_find?_eq_some hf
        · have := List.find?_some hf
          simpa using this
  · intro env k n pre post hpre hn
    induction pre with
    | nil =>
      rw [List.nil_append]
      unfold tryTransitions
      dsimp only
      rw [if_pos hn]
      simp
    | cons m pre' ih =>
      have hm : (transition_issue env k m).1 = false := hpre m (List.mem_cons_self _ _)
      have ih2 := ih (fun x hx => hpre x (List.mem_cons_of_mem _ hx))
      show tryTransitions env k (m :: (pre' ++ n :: post)) = _
      unfold tryTransitions
      dsimp only
      rw [if_neg (by simp [hm]), ih2]
      simp
  · intro env k cands hall
    induction cands with
    | nil => rfl
    | cons m rest ih =>
      have hm : (transition_issue env k m).1 = false := hall m (List.mem_cons_self _ _)
      have ih2 := ih (fun x hx => hall x (List.mem_cons_of_mem _ hx))
      unfold tryTransitions
      dsimp only
      rw [if_neg (by simp [hm]), ih2]
      simp
  · intro cfg env k
    rfl
  · intro cfg env k st h
    unfold statusTransitionCalls
    dsimp only
    rw [h]
  · intro cfg env k st h
    unfold statusTransitionCalls
    dsimp only
    rw [h]

/-- Witness for C6: with exposed transitions `done` (POST accepted) and
`Backlog`, and candidates `To Do`, `Done`, `Backlog`: `To Do` fails, `Done`
is applied, and `Backlog` is never tried; and status code 99 has no
configured candidates, so its status change is skipped. -/
theorem C6_transition_candidates_in_order_witness :
    tryTransitions envC6 "PROJ-6" (["To Do"] ++ "Done" :: ["Backlog"]) =
      (true, ["To Do"].flatMap (fun m => (transition_issue envC6 "PROJ-6" m).2) ++
        (transition_issue envC6 "PROJ-6" "Done").2) ∧
    statusTransitionCalls cfgBase envC6 "PROJ-6" (some 99) = [] :=
  ⟨C6_transition_candidates_in_order.2.1 envC6 "PROJ-6" "Done" ["To Do"] ["Backlog"]
      (by decide) (by decide),
   C6_transition_candidates_in_order.2.2.2.2.1 cfgBase envC6 "PROJ-6" 99 (by decide)⟩


/-! ### C5: forward translation tables -/

/-- Every call the comment loop emits is an attachment lookup, a download,
or a note — never a field update. -/
theorem syncCommentsPhase_shape (cfg : SyncConfig) (env : Env) (t : JiraTicket)
    (fdId lastId : Nat) :
    ∀ c ∈ (syncCommentsPhase cfg env t fdId lastId).2,
      (∃ i, c = Call.getAttachmentDetails i) ∨ (∃ u, c = Call.downloadAttachment u) ∨
        ∃ fd b a, c = Call.addNote fd b a := by
  unfold syncCommentsPhase
  apply foldl_calls_invariant
  · intro s0 a _ c hc
    unfold syncOneComment at hc
    by_cases hgt : lastId < a.id
    · rw [if_pos hgt] at hc
      by_cases htag : pyIn cfg.BOT_COMMENT_TAG (extract_text_from_adf a.body) = true
      · rw [if_pos htag] at hc
        exact Or.inl hc
      · rw [if_neg htag] at hc
        dsimp only at hc
        rcases List.mem_append.mp hc with h1 | h1
        · rcases List.mem_append.mp h1 with h2 | h2
          · exact Or.inl h2
          · rcases getJiraAttachments_calls cfg env t a.body c h2 with h3 | h3
            · exact Or.inr (Or.inl h3)
            · exact Or.inr (Or.inr (Or.inl h3))
        · have hc2 : c = Call.addNote fdId
              (jiraCommentNoteBody cfg.BOT_COMMENT_TAG a.authorDisplayName
                (extract_text_from_adf a.body))
              (getJiraAttachments cfg env t a.body).1 := by simpa using h1
          exact Or.inr (Or.inr (Or.inr ⟨_, _, _, hc2⟩))
    · rw [if_neg hgt] at hc
      exact Or.inl hc
  · intro c hc; simp at hc

def cfgC5 : SyncConfig := { cfgBase with SYNC_COMMENTS := false }

def ticketC5 : JiraTicket where
  key := "PROJ-2"
  summary := "x"
  description := .empty
  statusName := "Backlog"
  priorityName := some "HIGH"
  comments := []
  updated := "2024-05-10T12:00:00+00:00"
  created := "2024-05-01T00:00:00+00:00"
  attachmentIds := []

/-- Counterexample to C5 as stated: the forward priority lookup is
case-sensitive — `"HIGH"` finds nothing although the table maps `"High"`
to 3 (so a case-insensitive table would yield `some 3`) — and for a mapped
ticket with that (unrecognized-as-written) priority name the propagator
pushes nothing at all instead of a fixed default code: the step completes
with zero calls. -/
theorem C5_counterexample :
    pyGet JIRA_PRIORITY_TO_FRESHDESK "HIGH" = none ∧
    specCaseInsensitiveGet JIRA_PRIORITY_TO_FRESHDESK "HIGH" = some 3 ∧
    syncJiraTicketStep cfgC5 envNoop mappingC2 ticketC5 =
      .ok ([("PROJ-2", ⟨88, some "2024-06-01T00:00:00+00:00",
        some "2024-05-01T00:00:00+00:00", 0⟩)], []) := by
  refine ⟨by decide, by decide, by decide⟩

/-- C5 (amended): the forward translation tables are case-sensitive exact
lookups.  The Creator applies fixed defaults for unrecognized names —
priority code 1 and the `open` status code 2 — and its creation payload
carries exactly the translated codes; the propagator pushes a priority
update only for a recognized name (with the table's code) and performs no
field call for an unrecognized one. -/
theorem C5_forward_translation_tables :
    (∀ (n : String) (c : Nat), pyGet JIRA_PRIORITY_TO_FRESHDESK n = some c →
      createTicketPriority (some n) = c) ∧
    (∀ n : String, pyGet JIRA_PRIORITY_TO_FRESHDESK n = none →
      createTicketPriority (some n) = 1) ∧
    createTicketPriority none = 1 ∧
    (∀ (s : String) (c : Nat), pyGet JIRA_STATUS_TO_FRESHDESK s = some c →
      createTicketStatus s = c) ∧
    (∀ s : String, pyGet JIRA_STATUS_TO_FRESHDESK s = none → createTicketStatus s = 2) ∧
    (∀ (cfg : SyncConfig) (env : Env) (mapping : Mapping) (t : JiraTicket),
      Call.createTicket t.key t.summary (creatorDescription t)
        (createTicketPriority t.priorityName) (createTicketStatus t.statusName) ∈
        (createNewTicket cfg env mapping t).2) ∧
    (∀ (cfg : SyncConfig) (env : Env) (mapping : Mapping) (t : JiraTicket)
       (mp : Mapping) (calls : List Call) (entry : MappingEntry) (n : String) (c : Nat),
      syncJiraTicketStep cfg env mapping t = .ok (mp, calls) →
      pyGet mapping t.key = some entry → jiraStale entry t = .ok false →
      t.priorityName = some n → pyGet JIRA_PRIORITY_TO_FRESHDESK n = some c →
      Call.updateTicketFields entry.freshdesk_id c ∈ calls) ∧
    (∀ (cfg : SyncConfig) (env : Env) (mapping : Mapping) (t : JiraTicket)
       (mp : Mapping) (calls : List Call) (n : String),
      syncJiraTicketStep cfg env mapping t = .ok (mp, calls) →
      t.priorityName = some n → pyGet JIRA_PRIORITY_TO_FRESHDESK n = none →
      ∀ fd p, Call.updateTicketFields fd p ∉ calls) := by
  refine ⟨?_, ?_, rfl, ?_, ?_, ?_, ?_, ?_⟩
  · intro n c h
    simp [createTicketPriority, h]
  · intro n h
    simp [createTicketPriority, h]
  · intro s c h
    simp [createTicketStatus, h]
  · intro s h
    simp [createTicketStatus, h]
  · intro cfg env mapping t
    unfold createNewTicket
    cases hr : env.createTicketResp t with
    | some fdId => dsimp only; simp
    | none => dsimp only; simp
  · intro cfg env mapping t mp calls entry n c h hm hstale hn hq
    unfold syncJiraTicketStep at h
    rw [hm] at h
    dsimp only at h
    rw [hstale] at h
    dsimp only at h
    cases h
    rw [hn]
    dsimp only
    rw [hq]
    simp
  · intro cfg env mapping t mp calls n h hn hq fd p hmem
    unfold syncJiraTicketStep at h
    cases hm : pyGet mapping t.key with
    | none => rw [hm] at h; cases h; simp at hmem
    | some entry =>
      rw [hm] at h
      dsimp only at h
      cases hs : jiraStale entry t with
      | error e => rw [hs] at h; cases h
      | ok stale =>
        rw [hs] at h
        cases stale with
        | true => cases h; simp at hmem
        | false =>
          dsimp only at h
          cases h
          rcases List.mem_append.mp hmem with h1 | h1
          · rw [hn] at h1
            dsimp only at h1
            rw [hq] at h1
            simp at h1
          · by_cases hsc : cfg.SYNC_COMMENTS = true
            · rw [if_pos hsc] at h1
              rcases syncCommentsPhase_shape cfg env t entry.freshdesk_id
                  entry.last_jira_comment_id _ h1 with ⟨i, hk⟩ | ⟨u, hk⟩ | ⟨f2, b2, a2, hk⟩ <;>
                cases hk
            · rw [if_neg hsc] at h1
              simp at h1

/-- Witness for C5 (amended): `"Alta"` translates to 3, the unknown
`"Weird"` status defaults to 2, the Creator payload for a ticket with
unrecognized names carries the defaults (1, 2), a recognized `"High"`
priority is pushed as 3, and an unrecognized `"HIGH"` priority yields no
field call. -/
theorem C5_forward_translation_tables_witness :
    createTicketPriority (some "Alta") = 3 ∧
    createTicketStatus "Weird" = 2 ∧
    Call.createTicket ticketC5.key ticketC5.summary (creatorDescription ticketC5)
      (createTicketPriority ticketC5.priorityName) (createTicketStatus ticketC5.statusName) ∈
      (createNewTicket cfgC5 envNoop mappingC2 ticketC5).2 ∧
    Call.updateTicketFields entryC2.freshdesk_id 3 ∈
      [Call.updateTicketFields 88 3] ∧
    (∀ fd p, Call.updateTicketFields fd p ∉ ([] : List Call)) :=
  ⟨C5_forward_translation_tables.1 "Alta" 3 (by decide),
   C5_forward_translation_tables.2.2.2.2.1 "Weird" (by decide),
   C5_forward_translation_tables.2.2.2.2.2.1 cfgC5 envNoop mappingC2 ticketC5,
   C5_forward_translation_tables.2.2.2.2.2.2.1 cfgC5 envNoop mappingC2
     { ticketC5 with priorityName := some "High" }
     [("PROJ-2", ⟨88, some "2024-06-01T00:00:00+00:00",
       some "2024-05-01T00:00:00+00:00", 0⟩)]
     [Call.updateTicketFields 88 3] entryC2 "High" 3
     (by decide) (by decide) (by decide) (by decide) (by decide),
   C5_forward_translation_tables.2.2.2.2.2.2.2 cfgC5 envNoop mappingC2 ticketC5
     [("PROJ-2", ⟨88, some "2024-06-01T00:00:00+00:00",
       some "2024-05-01T00:00:00+00:00", 0⟩)]
     [] "HIGH" (by decide) (by decide) (by decide)⟩


/-! ### Dictionary lemmas -/

theorem pyGet_nil {α β : Type} [BEq α] (k : α) : pyGet ([] : List (α × β)) k = none := rfl

theorem pyGet_cons_eq {α β : Type} [BEq α] (p : α × β) (ps : List (α × β)) (k : α)
    (h : (p.1 == k) = true) : pyGet (p :: ps) k = some p.2 := by
  simp [pyGet, List.find?_cons, h]

theorem pyGet_cons_ne {α β : Type} [BEq α] (p : α × β) (ps : List (α × β)) (k : α)
    (h : (p.1 == k) = false) : pyGet (p :: ps) k = pyGet ps k := by
  simp [pyGet, List.find?_cons, h]

theorem pySet_cons_head {α β : Type} [BEq α] (p : α × β) (ps : List (α × β)) (k : α) (v : β)
    (h : (p.1 == k) = true) :
    pySet (p :: ps) k v = (k, v) :: ps.map (fun q => if q.1 == k then (k, v) else q) := by
  simp [pySet, List.find?_cons, h]

theorem pySet_cons_tail_found {α β : Type} [BEq α] (p : α × β) (ps : List (α × β)) (k : α) (v : β)
    (h : (p.1 == k) = false) (hc : (ps.find? (fun q => q.1 == k)).isSome = true) :
    pySet (p :: ps) k v = p :: ps.map (fun q => if q.1 == k then (k, v) else q) := by
  simp [pySet, List.find?_cons, h, hc]

theorem pySet_cons_missing {α β : Type} [BEq α] (p : α × β) (ps : List (α × β)) (k : α) (v : β)
    (h : (p.1 == k) = false) (hc : (ps.find? (fun q => q.1 == k)).isSome = false) :
    pySet (p :: ps) k v = p :: (ps ++ [(k, v)]) := by
  simp [pySet, List.find?_cons, h, hc]

theorem pySet_tail_cases {α β : Type} [BEq α] (ps : List (α × β)) (k : α) (v : β) :
    pySet ps k v = ps.map (fun q => if q.1 == k then (k, v) else q) ∨
    pySet ps k v = ps ++ [(k, v)] := by
  unfold pySet
  by_cases hc : (ps.find? (fun q => q.1 == k)).isSome
  · rw [if_pos hc]; exact Or.inl rfl
  · rw [if_neg hc]; exact Or.inr rfl

theorem pyGet_pySet_same {α β : Type} [BEq α] [LawfulBEq α] :
    ∀ (m : List (α × β)) (k : α) (v : β), pyGet (pySet m k v) k = some v := by
  intro m k v
  induction m with
  | nil => simp [pySet, pyGet, List.find?]
  | cons p ps ih =>
    by_cases hp : (p.1 == k) = true
    · rw [pySet_cons_head p ps k v hp]
      exact pyGet_cons_eq _ _ _ (by simp)
    · have hp2 : (p.1 == k) = false := by simpa using hp
      by_cases hc : (ps.find? (fun q => q.1 == k)).isSome = true
      · rw [pySet_cons_tail_found p ps k v hp2 hc, pyGet_cons_ne _ _ _ hp2]
        rcases pySet_tail_cases ps k v with he | he
        · rw [← he]; exact ih
        · exfalso
          unfold pySet at he
          rw [if_pos hc] at he
          have hlen := congrArg List.length he
          simp at hlen
      · have hc2 : (ps.find? (fun q => q.1 == k)).isSome = false := Bool.eq_false_iff.mpr hc
        rw [pySet_cons_missing p ps k v hp2 hc2, pyGet_cons_ne _ _ _ hp2]
        rcases pySet_tail_cases ps k v with he | he
        · exfalso
          unfold pySet at he
          rw [if_neg (by rw [hc2]; decide)] at he
          have hlen := congrArg List.length he
          simp at hlen
        · rw [← he]; exact ih

theorem pyGet_pySet_ne {α β : Type} [BEq α] [LawfulBEq α] :
    ∀ (m : List (α × β)) (k k2 : α) (v : β), ¬k2 = k →
      pyGet (pySet m k v) k2 = pyGet m k2 := by
  intro m k k2 v h
  have hkk : (k == k2) = false := by
    simp only [beq_eq_false_iff_ne, ne_eq]
    intro he; exact h he.symm
  induction m with
  | nil =>
    show pyGet (pySet [] k v) k2 = _
    simp [pySet, pyGet, List.find?, hkk]
  | cons p ps ih =>
    by_cases hp : (p.1 == k) = true
    · rw [pySet_cons_head p ps k v hp]
      have hpk : p.1 = k := by simpa using hp
      have hpk2 : (p.1 == k2) = false := by
        simp only [beq_eq_false_iff_ne, ne_eq, hpk]
        intro he; exact h he.symm
      rw [pyGet_cons_ne _ _ _ hkk, pyGet_cons_ne _ _ _ hpk2]
      -- the rewrite-in-place map only touches keys equal to k
      clear ih hp hpk hpk2 p
      induction ps with
      | nil => rfl
      | cons q qs ihq =>
        by_cases hq : (q.1 == k) = true
        · have hqk2 : (q.1 == k2) = false := by
            have : q.1 = k := by simpa using hq
            simp only [beq_eq_false_iff_ne, ne_eq, this]
            intro he; exact h he.symm
          simp only [List.map_cons, if_pos hq]
          rw [pyGet_cons_ne _ _ _ hkk, pyGet_cons_ne _ _ _ hqk2]
          exact ihq
        · have hq2 : (q.1 == k) = false := by simpa using hq
          simp only [List.map_cons, if_neg hq]
          by_cases hqk2 : (q.1 == k2) = true
          · rw [pyGet_cons_eq _ _ _ hqk2, pyGet_cons_eq _ _ _ hqk2]
          · have hqk2f : (q.1 == k2) = false := by simpa using hqk2
            rw [pyGet_cons_ne _ _ _ hqk2f, pyGet_cons_ne _ _ _ hqk2f]
            exact ihq
    · have hp2 : (p.1 == k) = false := by simpa using hp
      by_cases hc : (ps.find? (fun q => q.1 == k)).isSome = true
      · rw [pySet_cons_tail_found p ps k v hp2 hc]
        by_cases hpk2 : (p.1 == k2) = true
        · rw [pyGet_cons_eq _ _ _ hpk2, pyGet_cons_eq _ _ _ hpk2]
        · have hpk2f : (p.1 == k2) = false := by simpa using hpk2
          rw [pyGet_cons_ne _ _ _ hpk2f, pyGet_cons_ne _ _ _ hpk2f]
          rcases pySet_tail_cases ps k v with he | he
          · rw [← he]; exact ih
          · exfalso
            unfold pySet at he
            rw [if_pos hc] at he
            have hlen := congrArg List.length he
            simp at hlen
      · have hc2 : (ps.find? (fun q => q.1 == k)).isSome = false := Bool.eq_false_iff.mpr hc
        rw [pySet_cons_missing p ps k v hp2 hc2]
        by_cases hpk2 : (p.1 == k2) = true
        · rw [pyGet_cons_eq _ _ _ hpk2, pyGet_cons_eq _ _ _ hpk2]
        · have hpk2f : (p.1 == k2) = false := by simpa using hpk2
          rw [pyGet_cons_ne _ _ _ hpk2f, pyGet_cons_ne _ _ _ hpk2f]
          rcases pySet_tail_cases ps k v with he | he
          · exfalso
            unfold pySet at he
            rw [if_neg (by rw [hc2]; decide)] at he
            have hlen := congrArg List.length he
            simp at hlen
          · rw [← he]; exact ih


/-! ### C7: the comment-sequence watermark -/

theorem syncOneComment_fst (cfg : SyncConfig) (env : Env) (t : JiraTicket)
    (fdId lastId : Nat) (st : Nat × List Call) (c : JiraComment) :
    (syncOneComment cfg env t fdId lastId st c).1 =
      if lastId < c.id ∧
          pyIn cfg.BOT_COMMENT_TAG (extract_text_from_adf c.body) = false ∧
          st.1 < c.id
      then c.id else st.1 := by
  unfold syncOneComment
  by_cases h1 : lastId < c.id
  · rw [if_pos h1]
    by_cases h2 : pyIn cfg.BOT_COMMENT_TAG (extract_text_from_adf c.body) = true
    · rw [if_pos h2]
      rw [if_neg (by intro hh; rw [hh.2.1] at h2; cases h2)]
    · rw [if_neg h2]
      dsimp only
      by_cases h3 : st.1 < c.id
      · rw [if_pos h3, if_pos ⟨h1, Bool.eq_false_iff.mpr h2, h3⟩]
      · rw [if_neg h3, if_neg (by intro hh; exact h3 hh.2.2)]
  · rw [if_neg h1, if_neg (by intro hh; exact h1 hh.1)]

theorem commentFold_ge (cfg : SyncConfig) (env : Env) (t : JiraTicket)
    (fdId lastId : Nat) :
    ∀ (l : List JiraComment) (st : Nat × List Call),
      st.1 ≤ (l.foldl (syncOneComment cfg env t fdId lastId) st).1 := by
  intro l
  induction l with
  | nil => intro st; exact Nat.le_refl _
  | cons c cs ih =>
    intro st
    have hstep : st.1 ≤ (syncOneComment cfg env t fdId lastId st c).1 := by
      rw [syncOneComment_fst]
      by_cases h : lastId < c.id ∧
          pyIn cfg.BOT_COMMENT_TAG (extract_text_from_adf c.body) = false ∧ st.1 < c.id
      · rw [if_pos h]; exact Nat.le_of_lt h.2.2
      · rw [if_neg h]
    exact Nat.le_trans hstep (ih _)

theorem commentFold_ub (cfg : SyncConfig) (env : Env) (t : JiraTicket)
    (fdId lastId : Nat) :
    ∀ (l : List JiraComment) (st : Nat × List Call), ∀ c ∈ l,
      lastId < c.id →
      pyIn cfg.BOT_COMMENT_TAG (extract_text_from_adf c.body) = false →
      c.id ≤ (l.foldl (syncOneComment cfg env t fdId lastId) st).1 := by
  intro l
  induction l with
  | nil => intro st c hc; cases hc
  | cons d ds ih =>
    intro st c hc hgt htag
    rcases List.mem_cons.mp hc with h1 | h1
    · subst h1
      have hstep : c.id ≤ (syncOneComment cfg env t fdId lastId st c).1 := by
        rw [syncOneComment_fst]
        by_cases h3 : st.1 < c.id
        · rw [if_pos ⟨hgt, htag, h3⟩]
        · rw [if_neg (by intro hh; exact h3 hh.2.2)]
          omega
      exact Nat.le_trans hstep (commentFold_ge cfg env t fdId lastId ds _)
    · exact ih _ c h1 hgt htag

theorem commentFold_origin (cfg : SyncConfig) (env : Env) (t : JiraTicket)
    (fdId lastId : Nat) :
    ∀ (l : List JiraComment) (st : Nat × List Call),
      (l.foldl (syncOneComment cfg env t fdId lastId) st).1 = st.1 ∨
      ∃ c ∈ l, (l.foldl (syncOneComment cfg env t fdId lastId) st).1 = c.id ∧
        lastId < c.id ∧
        pyIn cfg.BOT_COMMENT_TAG (extract_text_from_adf c.body) = false := by
  intro l
  induction l with
  | nil => intro st; exact Or.inl rfl
  | cons d ds ih =>
    intro st
    rcases ih (syncOneComment cfg env t fdId lastId st d) with h1 | ⟨c, hc, h1, h2, h3⟩
    · rw [List.foldl_cons, h1, syncOneComment_fst]
      by_cases h : lastId < d.id ∧
          pyIn cfg.BOT_COMMENT_TAG (extract_text_from_adf d.body) = false ∧ st.1 < d.id
      · rw [if_pos h]
        exact Or.inr ⟨d, List.mem_cons_self _ _, rfl, h.1, h.2.1⟩
      · rw [if_neg h]
        exact Or.inl rfl
    · rw [List.foldl_cons]
      exact Or.inr ⟨c, List.mem_cons_of_mem _ hc, h1, h2, h3⟩

theorem mem_insertComment_of {x y : JiraComment} :
    ∀ {l : List JiraComment}, (y = x ∨ y ∈ l) → y ∈ insertComment x l := by
  intro l
  induction l with
  | nil =>
    intro h
    rcases h with h | h
    · simp [insertComment, h]
    · cases h
  | cons z zs ih =>
    intro h
    unfold insertComment
    by_cases hz : z.id < x.id
    · rw [if_pos hz]
      rcases h with h | h
      · exact List.mem_cons_of_mem _ (ih (Or.inl h))
      · rcases List.mem_cons.mp h with h2 | h2
        · exact h2 ▸ List.mem_cons_self _ _
        · exact List.mem_cons_of_mem _ (ih (Or.inr h2))
    · rw [if_neg hz]
      rcases h with h | h
      · exact h ▸ List.mem_cons_self _ _
      · exact List.mem_cons_of_mem _ h

theorem mem_sortCommentsById_of {y : JiraComment} :
    ∀ {l : List JiraComment}, y ∈ l → y ∈ sortCommentsById l := by
  intro l
  induction l with
  | nil => intro h; cases h
  | cons z zs ih =>
    intro h
    rcases List.mem_cons.mp h with h1 | h1
    · exact mem_insertComment_of (Or.inl h1)
    · exact mem_insertComment_of (Or.inr (ih h1))

def ticketC7 : JiraTicket where
  key := "PROJ-2"
  summary := "x"
  description := .empty
  statusName := "Backlog"
  priorityName := none
  comments := [⟨3, "Alice", .str "human comment"⟩, ⟨5, "Bot", .str "[SyncBot] echo"⟩]
  updated := "2024-05-10T12:00:00+00:00"
  created := "2024-05-01T00:00:00+00:00"
  attachmentIds := []

/-- Counterexample to C7 as stated: with stored counter 0 and comments 3
(human) and 5 (bot-tagged), the pass overwrites the counter — but with 3,
the largest id actually synced, not with 5, the maximum comment id seen in
the pass (the tagged comment is skipped before the maximum is tracked). -/
theorem C7_counterexample :
    (pyGet (match syncJiraTicketStep cfgBase envNoop mappingC2 ticketC7 with
      | .ok (mp, _) => mp
      | .error _ => []) "PROJ-2").map MappingEntry.last_jira_comment_id = some 3 ∧
    entryC2.last_jira_comment_id = 0 ∧
    ticketC7.comments.foldl (fun m c => max m c.id) 0 = 5 := by decide

/-- C7 (amended): a mapping entry's comment-sequence number never
decreases: it starts at 0 in every entry written by match or creation, and
the source→target step overwrites it only with the maximum id among the
comments actually synced in that pass (those with id above the stored
value whose extracted body lacks the bot tag), and only when that maximum
strictly exceeds the stored value. -/
theorem C7_comment_watermark_monotonic :
    (∀ (fdId : Nat) (nowIso : String),
      (newMappingEntry fdId nowIso).last_jira_comment_id = 0) ∧
    (∀ (cfg : SyncConfig) (env : Env) (mapping : Mapping) (t : JiraTicket)
       (mp : Mapping) (calls : List Call) (entry entry2 : MappingEntry),
      syncJiraTicketStep cfg env mapping t = .ok (mp, calls) →
      pyGet mapping t.key = some entry →
      pyGet mp t.key = some entry2 →
      entry.last_jira_comment_id ≤ entry2.last_jira_comment_id ∧
      (¬entry2.last_jira_comment_id = entry.last_jira_comment_id →
        (∃ c ∈ t.comments, entry2.last_jira_comment_id = c.id ∧
          entry.last_jira_comment_id < c.id ∧
          pyIn cfg.BOT_COMMENT_TAG (extract_text_from_adf c.body) = false) ∧
        ∀ c ∈ t.comments, entry.last_jira_comment_id < c.id →
          pyIn cfg.BOT_COMMENT_TAG (extract_text_from_adf c.body) = false →
          c.id ≤ entry2.last_jira_comment_id)) := by
  constructor
  · intro fdId nowIso; rfl
  · intro cfg env mapping t mp calls entry entry2 h hget hget2
    unfold syncJiraTicketStep at h
    rw [hget] at h
    dsimp only at h
    cases hs : jiraStale entry t with
    | error e => rw [hs] at h; cases h
    | ok stale =>
      rw [hs] at h
      cases stale with
      | true =>
        cases h
        rw [hget] at hget2
        have : entry = entry2 := Option.some.inj hget2
        subst this
        exact ⟨Nat.le_refl _, fun hne => absurd rfl hne⟩
      | false =>
        dsimp only at h
        cases h
        rw [pyGet_pySet_same] at hget2
        have hdef := Option.some.inj hget2
        by_cases hsc : cfg.SYNC_COMMENTS = true
        · rw [if_pos hsc] at hdef
          set cp := syncCommentsPhase cfg env t entry.freshdesk_id entry.last_jira_comment_id with hcp
          by_cases hlt : entry.last_jira_comment_id < cp.1
          · rw [if_pos hlt] at hdef
            have hid : entry2.last_jira_comment_id = cp.1 := by rw [← hdef]
            constructor
            · rw [hid]; exact Nat.le_of_lt hlt
            · intro _
              constructor
              · rcases commentFold_origin cfg env t entry.freshdesk_id
                    entry.last_jira_comment_id (sortCommentsById t.comments)
                    (entry.last_jira_comment_id, []) with h1 | ⟨c, hc, h1, h2, h3⟩
                · exfalso
                  rw [hcp] at hlt
                  unfold syncCommentsPhase at hlt
                  rw [h1] at hlt
                  exact Nat.lt_irrefl _ hlt
                · exact ⟨c, mem_sortCommentsById hc, by rw [hid, hcp]; exact h1, h2, h3⟩
              · intro c hc hgt htag
                rw [hid, hcp]
                exact commentFold_ub cfg env t entry.freshdesk_id
                  entry.last_jira_comment_id _ _ c (mem_sortCommentsById_of hc) hgt htag
          · rw [if_neg hlt] at hdef
            have hid : entry2.last_jira_comment_id = entry.last_jira_comment_id := by
              rw [← hdef]
            exact ⟨hid.ge, fun hne => absurd hid hne⟩
        · rw [if_neg hsc] at hdef
          dsimp only at hdef
          rw [if_neg (by omega)] at hdef
          have hid : entry2.last_jira_comment_id = entry.last_jira_comment_id := by
            rw [← hdef]
          exact ⟨hid.ge, fun hne => absurd hid hne⟩


def entryC7After : MappingEntry :=
  ⟨88, some "2024-06-01T00:00:00+00:00", some "2024-05-01T00:00:00+00:00", 3⟩

/-- Witness for C7 (amended): on the concrete pass over comments 3 (human)
and 5 (tagged) with stored counter 0, the counter does not decrease, the
new value 3 is the id of a synced comment above the old value, and every
synced comment id is bounded by it; a fresh match/creation entry starts
at 0. -/
theorem C7_comment_watermark_monotonic_witness :
    (newMappingEntry 42 "2024-06-01T00:00:00+00:00").last_jira_comment_id = 0 ∧
    (entryC2.last_jira_comment_id ≤ entryC7After.last_jira_comment_id ∧
      (¬entryC7After.last_jira_comment_id = entryC2.last_jira_comment_id →
        (∃ c ∈ ticketC7.comments, entryC7After.last_jira_comment_id = c.id ∧
          entryC2.last_jira_comment_id < c.id ∧
          pyIn cfgBase.BOT_COMMENT_TAG (extract_text_from_adf c.body) = false) ∧
        ∀ c ∈ ticketC7.comments, entryC2.last_jira_comment_id < c.id →
          pyIn cfgBase.BOT_COMMENT_TAG (extract_text_from_adf c.body) = false →
          c.id ≤ entryC7After.last_jira_comment_id)) :=
  ⟨C7_comment_watermark_monotonic.1 42 "2024-06-01T00:00:00+00:00",
   C7_comment_watermark_monotonic.2 cfgBase envNoop mappingC2 ticketC7
     [("PROJ-2", entryC7After)]
     [Call.addNote 88 "[SyncBot]\n**Comentário do Jira por Alice:**\n\nhuman comment" []]
     entryC2 entryC7After (by decide) (by decide) (by decide)⟩


/-! ### C3: matching exclusivity -/

theorem pyGet_append_single {α β : Type} [BEq α] [LawfulBEq α]
    (m : List (α × β)) (k k2 : α) (v : β) :
    pyGet (m ++ [(k, v)]) k2 =
      match pyGet m k2 with
      | some w => some w
      | none => if k == k2 then some v else none := by
  unfold pyGet
  rw [List.find?_append]
  cases hf : m.find? (fun p => p.1 == k2) with
  | some p => simp
  | none =>
    simp only [Option.map_none, Option.none_or]
    by_cases hk : (k == k2) = true
    · simp [List.find?, hk]
    · have : (k == k2) = false := Bool.eq_false_iff.mpr hk
      simp [List.find?, this]

/-- Any element of a bucket after `multiMapAdd` was in that bucket before,
or is the value just appended. -/
theorem mem_of_multiMapAdd (m : List (String × List FdTicket)) (k : String)
    (v : FdTicket) (k2 : String) (lst : List FdTicket) (x : FdTicket)
    (hget : pyGet (multiMapAdd m k v) k2 = some lst) (hx : x ∈ lst) :
    (∃ lst0, pyGet m k2 = some lst0 ∧ x ∈ lst0) ∨ x = v := by
  unfold multiMapAdd at hget
  cases h0 : pyGet m k with
  | some l0 =>
    rw [h0] at hget
    by_cases hk : k2 = k
    · subst hk
      rw [pyGet_pySet_same] at hget
      have : l0 ++ [v] = lst := Option.some.inj hget
      rw [← this] at hx
      rcases List.mem_append.mp hx with h1 | h1
      · exact Or.inl ⟨l0, h0, h1⟩
      · exact Or.inr (by simpa using h1)
    · rw [pyGet_pySet_ne _ _ _ _ hk] at hget
      exact Or.inl ⟨lst, hget, hx⟩
  | none =>
    rw [h0] at hget
    rw [pyGet_append_single] at hget
    cases h1 : pyGet m k2 with
    | some w =>
      rw [h1] at hget
      dsimp only at hget
      exact Or.inl ⟨w, rfl, by rw [Option.some.inj hget]; exact hx⟩
    | none =>
      rw [h1] at hget
      dsimp only at hget
      by_cases hk : (k == k2) = true
      · rw [if_pos hk] at hget
        have : [v] = lst := Option.some.inj hget
        rw [← this] at hx
        exact Or.inr (by simpa using hx)
      · rw [if_neg hk] at hget
        cases hget

/-- The candidate index never holds a ticket whose id is already claimed by
an existing mapping entry. -/
theorem buildCandidateMaps_excludes (mappedFdIds : List String)
    (fdCandidates : List FdTicket) :
    (∀ k lst, pyGet (buildCandidateMaps mappedFdIds fdCandidates).1 k = some lst →
      ∀ ft ∈ lst, mappedFdIds.contains (toString ft.id) = false) ∧
    (∀ k lst, pyGet (buildCandidateMaps mappedFdIds fdCandidates).2 k = some lst →
      ∀ ft ∈ lst, mappedFdIds.contains (toString ft.id) = false) := by
  unfold buildCandidateMaps
  suffices h : ∀ (l : List FdTicket)
      (acc : (List (String × List FdTicket)) × (List (String × List FdTicket))),
      (∀ k lst, pyGet acc.1 k = some lst →
        ∀ ft ∈ lst, mappedFdIds.contains (toString ft.id) = false) →
      (∀ k lst, pyGet acc.2 k = some lst →
        ∀ ft ∈ lst, mappedFdIds.contains (toString ft.id) = false) →
      (∀ k lst, pyGet (l.foldl (bcmStep mappedFdIds) acc).1 k = some lst →
        ∀ ft ∈ lst, mappedFdIds.contains (toString ft.id) = false) ∧
      (∀ k lst, pyGet (l.foldl (bcmStep mappedFdIds) acc).2 k = some lst →
        ∀ ft ∈ lst, mappedFdIds.contains (toString ft.id) = false) by
    exact h fdCandidates ([], []) (fun k lst h2 => by cases h2) (fun k lst h2 => by cases h2)
  intro l
  induction l with
  | nil => intro acc h1 h2; exact ⟨h1, h2⟩
  | cons ticket rest ih =>
    intro acc h1 h2
    rw [List.foldl_cons]
    by_cases hm : mappedFdIds.contains (toString ticket.id) = true
    · have hstep : bcmStep mappedFdIds acc ticket = acc := by
        unfold bcmStep; rw [if_pos hm]
      rw [hstep]
      exact ih acc h1 h2
    · have hm2 : mappedFdIds.contains (toString ticket.id) = false := Bool.eq_false_iff.mpr hm
      have hfst : (bcmStep mappedFdIds acc ticket).1 =
          if ¬normalize_text ticket.subject = "" then
            multiMapAdd acc.1 (normalize_text ticket.subject) ticket
          else acc.1 := by
        unfold bcmStep; rw [if_neg hm]
      have hsnd : (bcmStep mappedFdIds acc ticket).2 =
          if ¬fdTicketDescHtml ticket = "" then
            (if 20 < (normalize_text (strip_html_tags (fdTicketDescHtml ticket))).length then
              multiMapAdd acc.2 (normalize_text (strip_html_tags (fdTicketDescHtml ticket))) ticket
            else acc.2)
          else acc.2 := by
        unfold bcmStep; rw [if_neg hm]
      refine ih (bcmStep mappedFdIds acc ticket) ?_ ?_
      · intro k lst hget ft hft
        rw [hfst] at hget
        by_cases hte : ¬normalize_text ticket.subject = ""
        · rw [if_pos hte] at hget
          rcases mem_of_multiMapAdd _ _ _ _ _ _ hget hft with ⟨lst0, hget0, hmem0⟩ | hv
          · exact h1 k lst0 hget0 ft hmem0
          · rw [hv]; exact hm2
        · rw [if_neg hte] at hget
          exact h1 k lst hget ft hft
      · intro k lst hget ft hft
        rw [hsnd] at hget
        by_cases hde : ¬fdTicketDescHtml ticket = ""
        · rw [if_pos hde] at hget
          by_cases hlen : 20 <
              (normalize_text (strip_html_tags (fdTicketDescHtml ticket))).length
          · rw [if_pos hlen] at hget
            rcases mem_of_multiMapAdd _ _ _ _ _ _ hget hft with ⟨lst0, hget0, hmem0⟩ | hv
            · exact h2 k lst0 hget0 ft hmem0
            · rw [hv]; exact hm2
          · rw [if_neg hlen] at hget
            exact h2 k lst hget ft hft
        · rw [if_neg hde] at hget
          exact h2 k lst hget ft hft


/-- Claiming preserves distinctness of the claimed target ids and any
id-level predicate `Q` holding for the candidate lists. -/
theorem claimFirstUnclaimed_inv (Q : String → Prop) (cfg : SyncConfig) (env : Env)
    (st : MatchState) (t : JiraTicket) (lst : List FdTicket) (matchType : String)
    (h1 : st.fdMatchedIds.Nodup)
    (h2 : ∀ id ∈ st.fdMatchedIds, Q id)
    (hlst : ∀ ft ∈ lst, Q (toString ft.id)) :
    (claimFirstUnclaimed cfg env st t lst matchType).fdMatchedIds.Nodup ∧
    ∀ id ∈ (claimFirstUnclaimed cfg env st t lst matchType).fdMatchedIds, Q id := by
  unfold claimFirstUnclaimed
  cases hf : lst.find? (fun ft => !st.fdMatchedIds.contains (toString ft.id)) with
  | none => exact ⟨h1, h2⟩
  | some ft =>
    have hfree : st.fdMatchedIds.contains (toString ft.id) = false := by
      have := List.find?_some hf
      simpa using this
    have hnotmem : toString ft.id ∉ st.fdMatchedIds := by
      intro hmem
      have : st.fdMatchedIds.contains (toString ft.id) = true := by
        simpa [List.contains] using List.elem_eq_true_of_mem hmem
      rw [hfree] at this
      cases this
    have hmemlst := List.mem_of_find?_eq_some hf
    dsimp only [recordMatch]
    constructor
    · rw [List.nodup_append]
      refine ⟨h1, List.nodup_singleton _, ?_⟩
      intro a ha hb
      have : a = toString ft.id := by simpa using hb
      rw [this] at ha
      exact hnotmem ha
    · intro id hid
      rcases List.mem_append.mp hid with hm | hm
      · exact h2 id hm
      · have : id = toString ft.id := by simpa using hm
        rw [this]
        exact hlst ft hmemlst

/-- The title pass preserves the claim invariant. -/
theorem titlePass_inv (Q : String → Prop) (cfg : SyncConfig) (env : Env)
    (titleMap : List (String × List FdTicket))
    (hmap : ∀ k lst, pyGet titleMap k = some lst → ∀ ft ∈ lst, Q (toString ft.id)) :
    ∀ (unmappedJira : List JiraTicket) (st : MatchState),
      st.fdMatchedIds.Nodup → (∀ id ∈ st.fdMatchedIds, Q id) →
      (titlePass cfg env titleMap unmappedJira st).fdMatchedIds.Nodup ∧
      ∀ id ∈ (titlePass cfg env titleMap unmappedJira st).fdMatchedIds, Q id := by
  intro unmappedJira
  induction unmappedJira with
  | nil => intro st h1 h2; exact ⟨h1, h2⟩
  | cons t ts ih =>
    intro st h1 h2
    unfold titlePass
    rw [List.foldl_cons]
    have hstep : ∀ st2 : MatchState, st2.fdMatchedIds.Nodup →
        (∀ id ∈ st2.fdMatchedIds, Q id) →
        (match pyGet titleMap (normalize_text t.summary) with
          | none => st2
          | some lst => claimFirstUnclaimed cfg env st2 t lst "título").fdMatchedIds.Nodup ∧
        ∀ id ∈ (match pyGet titleMap (normalize_text t.summary) with
          | none => st2
          | some lst => claimFirstUnclaimed cfg env st2 t lst "título").fdMatchedIds, Q id := by
      intro st2 g1 g2
      cases hq : pyGet titleMap (normalize_text t.summary) with
      | none => exact ⟨g1, g2⟩
      | some lst =>
        exact claimFirstUnclaimed_inv Q cfg env st2 t lst "título" g1 g2
          (fun ft hft => hmap _ lst hq ft hft)
    have := hstep st h1 h2
    exact (ih _ this.1 this.2 : _)

/-- The description pass preserves the claim invariant. -/
theorem descPass_inv (Q : String → Prop) (cfg : SyncConfig) (env : Env)
    (descMap : List (String × List FdTicket))
    (hmap : ∀ k lst, pyGet descMap k = some lst → ∀ ft ∈ lst, Q (toString ft.id)) :
    ∀ (unmappedJira : List JiraTicket) (st : MatchState),
      st.fdMatchedIds.Nodup → (∀ id ∈ st.fdMatchedIds, Q id) →
      (descPass cfg env descMap unmappedJira st).fdMatchedIds.Nodup ∧
      ∀ id ∈ (descPass cfg env descMap unmappedJira st).fdMatchedIds, Q id := by
  intro unmappedJira
  induction unmappedJira with
  | nil => intro st h1 h2; exact ⟨h1, h2⟩
  | cons t ts ih =>
    intro st h1 h2
    unfold descPass
    rw [List.foldl_cons]
    set f := fun (st2 : MatchState) (t2 : JiraTicket) =>
      if st2.jiraMatchedKeys.contains t2.key then st2
      else
        let descText := extract_description t2.description
        if descText = "" then st2
        else
          let normDesc := normalize_text descText
          if 20 < normDesc.length then
            match pyGet descMap normDesc with
            | none => st2
            | some lst => claimFirstUnclaimed cfg env st2 t2 lst "descrição"
          else st2 with hfdef
    have hstep : (f st t).fdMatchedIds.Nodup ∧ ∀ id ∈ (f st t).fdMatchedIds, Q id := by
      rw [hfdef]
      dsimp only
      by_cases hmk : st.jiraMatchedKeys.contains t.key = true
      · rw [if_pos hmk]; exact ⟨h1, h2⟩
      · rw [if_neg hmk]
        by_cases hde : extract_description t.description = ""
        · rw [if_pos hde]; exact ⟨h1, h2⟩
        · rw [if_neg hde]
          by_cases hlen : 20 < (normalize_text (extract_description t.description)).length
          · rw [if_pos hlen]
            cases hq : pyGet descMap (normalize_text (extract_description t.description)) with
            | none => exact ⟨h1, h2⟩
            | some lst =>
              exact claimFirstUnclaimed_inv Q cfg env st t lst "descrição" h1 h2
                (fun ft hft => hmap _ lst hq ft hft)
          · rw [if_neg hlen]; exact ⟨h1, h2⟩
    exact ih (f st t) hstep.1 hstep.2

/-- C3: matching exclusivity.  The candidate index excludes every target
ticket already claimed by an existing mapping entry, and after the title
and description passes of one matching run the claimed target ids are
pairwise distinct and none of them was already claimed by the mapping. -/
theorem C3_matching_exclusivity (cfg : SyncConfig) (env : Env)
    (unmappedJira : List JiraTicket) (mapping : Mapping) (fdCandidates : List FdTicket) :
    (∀ k lst, pyGet (buildCandidateMaps
        (mapping.map (fun p => toString p.2.freshdesk_id)) fdCandidates).1 k = some lst →
      ∀ ft ∈ lst,
        (mapping.map (fun p => toString p.2.freshdesk_id)).contains (toString ft.id) = false) ∧
    (∀ k lst, pyGet (buildCandidateMaps
        (mapping.map (fun p => toString p.2.freshdesk_id)) fdCandidates).2 k = some lst →
      ∀ ft ∈ lst,
        (mapping.map (fun p => toString p.2.freshdesk_id)).contains (toString ft.id) = false) ∧
    (smartMatchPasses cfg env unmappedJira mapping fdCandidates).fdMatchedIds.Nodup ∧
    ∀ id ∈ (smartMatchPasses cfg env unmappedJira mapping fdCandidates).fdMatchedIds,
      (mapping.map (fun p => toString p.2.freshdesk_id)).contains id = false := by
  have hex := buildCandidateMaps_excludes
    (mapping.map (fun p => toString p.2.freshdesk_id)) fdCandidates
  refine ⟨hex.1, hex.2, ?_⟩
  have ht := titlePass_inv
    (fun id => (mapping.map (fun p => toString p.2.freshdesk_id)).contains id = false)
    cfg env _ (fun k lst hq ft hft => hex.1 k lst hq ft hft) unmappedJira
    ⟨mapping, [], [], []⟩ (List.nodup_nil) (by intro id hid; cases hid)
  have hd := descPass_inv
    (fun id => (mapping.map (fun p => toString p.2.freshdesk_id)).contains id = false)
    cfg env _ (fun k lst hq ft hft => hex.2 k lst hq ft hft) unmappedJira
    _ ht.1 ht.2
  exact hd


def mappingW3 : Mapping :=
  [("PROJ-0", ⟨5, some "2024-05-01T00:00:00+00:00", some "2024-05-01T00:00:00+00:00", 0⟩)]

def jtDupA : JiraTicket :=
  ⟨"PROJ-A", "Dup Ticket", .empty, "Backlog", none, [],
   "2024-05-10T12:00:00+00:00", "2024-05-01T00:00:00+00:00", []⟩

def jtDupB : JiraTicket :=
  ⟨"PROJ-B", "Dup Ticket", .empty, "Backlog", none, [],
   "2024-05-10T12:00:00+00:00", "2024-05-01T00:00:00+00:00", []⟩

def fdDup5 : FdTicket := ⟨5, "Dup Ticket", none, none, some 2, "2024-05-10T12:00:00+00:00"⟩

def fdDup6 : FdTicket := ⟨6, "Dup Ticket", none, none, some 2, "2024-05-10T12:00:00+00:00"⟩

/-- Witness for C3: target 5 is already mapped and two source tickets share
the title of candidates 5 and 6 — the run claims exactly the unmapped
candidate 6 once: the second source ticket cannot claim it again, the
claimed ids are distinct, and none was already claimed by the mapping. -/
theorem C3_matching_exclusivity_witness :
    (smartMatchPasses cfgBase envNoop [jtDupA, jtDupB] mappingW3 [fdDup5, fdDup6]).fdMatchedIds
      = ["6"] ∧
    (smartMatchPasses cfgBase envNoop [jtDupA, jtDupB] mappingW3 [fdDup5, fdDup6]).fdMatchedIds.Nodup ∧
    (mappingW3.map (fun p => toString p.2.freshdesk_id)).contains "6" = false :=
  ⟨by decide,
   (C3_matching_exclusivity cfgBase envNoop [jtDupA, jtDupB] mappingW3 [fdDup5, fdDup6]).2.2.1,
   (C3_matching_exclusivity cfgBase envNoop [jtDupA, jtDupB] mappingW3 [fdDup5, fdDup6]).2.2.2
     "6" (by decide)⟩


/-! ### C8: per-client failure isolation -/

theorem mainLoop_unchanged (k : String) :
    ∀ (clients : List Client) (files : FileStore),
      k ∉ clients.map Client.name →
      pyGet (mainLoop clients files) k = pyGet files k := by
  intro clients
  induction clients with
  | nil => intro files _; rfl
  | cons d ds ih =>
    intro files hk
    have hkd : ¬k = d.name := by
      intro he
      exact hk (by rw [List.map_cons, he]; exact List.mem_cons_self _ _)
    have hkds : k ∉ ds.map Client.name := by
      intro hm
      exact hk (by rw [List.map_cons]; exact List.mem_cons_of_mem _ hm)
    show pyGet (mainLoop ds (pySet files d.name _)) k = pyGet files k
    rw [ih _ hkds, pyGet_pySet_ne _ _ _ _ hkd]

/-- C8: if an unhandled exception escapes any phase of a client's run, the
final mapping persist for that client is skipped and the previously
persisted mapping file is unchanged; and in the client loop every client is
processed from its own prior file independently of the other clients'
outcomes, so processing continues with the remaining clients. -/
theorem C8_client_failure_isolated :
    (∀ (f : Mapping → Except PyError Mapping) (file : Option Mapping) (e : PyError),
      f (file.getD []) = .error e → processClient f file = file) ∧
    (∀ (clients : List Client) (files : FileStore),
      (clients.map Client.name).Nodup →
      ∀ c ∈ clients, pyGet (mainLoop clients files) c.name =
        some (processClient c.runSyncFn ((pyGet files c.name).getD none))) := by
  constructor
  · intro f file e h
    simp only [processClient, h]
  · intro clients
    induction clients with
    | nil => intro files _ c hc; cases hc
    | cons d ds ih =>
      intro files hnd c hc
      have hnd2 : (ds.map Client.name).Nodup := by
        rw [List.map_cons] at hnd
        exact hnd.of_cons
      have hdns : d.name ∉ ds.map Client.name := by
        rw [List.map_cons] at hnd
        exact (List.nodup_cons.mp hnd).1
      rcases List.mem_cons.mp hc with h1 | h1
      · subst h1
        show pyGet (mainLoop ds (pySet files c.name _)) c.name = _
        rw [mainLoop_unchanged _ _ _ hdns, pyGet_pySet_same]
      · have hcd : ¬c.name = d.name := by
          intro he
          exact hdns (he ▸ List.mem_map_of_mem Client.name h1)
        show pyGet (mainLoop ds (pySet files d.name _)) c.name = _
        rw [ih _ hnd2 c h1, pyGet_pySet_ne _ _ _ _ hcd]

def alphaCfg : SyncConfig :=
  { cfgBase with ENABLE_SMART_MAPPING := false, FIRST_RUN_TIMESTAMP := some "garbage" }

/-- A client whose run raises: the recorded cutover timestamp does not
parse, so `run_sync_for_client` hits `AttributeError`
(`parse_datetime(...) is None` and `.strftime` is called on it). -/
def alphaRun (m : Mapping) : Except PyError Mapping :=
  match runSyncForClient alphaCfg envNoop m with
  | .ok r => .ok r.2.1
  | .error e => .error e

/-- A client whose run succeeds and maps one new ticket. -/
def betaRun (m : Mapping) : Except PyError Mapping :=
  .ok (pySet m "PROJ-9" (newMappingEntry 9 "2024-06-01T00:00:00+00:00"))

def clientsW : List Client := [⟨"alpha", alphaRun⟩, ⟨"beta", betaRun⟩]

def filesW : FileStore := [("alpha", some mappingT0), ("beta", none)]

/-- Witness for C8: client `alpha` raises mid-run, so its previously
persisted mapping file survives unchanged, while client `beta` is still
processed from its own file. -/
theorem C8_client_failure_isolated_witness :
    processClient alphaRun (some mappingT0) = some mappingT0 ∧
    pyGet (mainLoop clientsW filesW) "alpha" =
      some (processClient alphaRun ((pyGet filesW "alpha").getD none)) ∧
    pyGet (mainLoop clientsW filesW) "beta" =
      some (processClient betaRun ((pyGet filesW "beta").getD none)) :=
  ⟨C8_client_failure_isolated.1 alphaRun (some mappingT0) .attributeError (by decide),
   C8_client_failure_isolated.2 clientsW filesW (by decide)
     ⟨"alpha", alphaRun⟩ (List.mem_cons_self _ _),
   C8_client_failure_isolated.2 clientsW filesW (by decide)
     ⟨"beta", betaRun⟩ (List.mem_cons_of_mem _ (List.mem_cons_self _ _))⟩


/-! ### C4: the cutover boundary -/

def isCreateFor (k : String) : Call → Bool
  | .createTicket k2 _ _ _ _ => k2 == k
  | _ => false

def cfgCut : SyncConfig :=
  { cfgBase with
    ENABLE_SMART_MAPPING := false
    FIRST_RUN_TIMESTAMP := some "2024-05-10T12:00:00+00:00" }

/-- Created at 06:00 of the cutover day — strictly before the recorded
cutover instant 12:00 — and modified within the sync window. -/
def ticketEarly : JiraTicket :=
  ⟨"PROJ-E", "Early same-day ticket", .empty, "Backlog", none, [],
   "2024-06-01T00:00:00+00:00", "2024-05-10T06:00:00+00:00", []⟩

def envCut : Env := { envNoop with jiraIssues := [ticketEarly] }

/-- Created the day before the recorded cutover date. -/
def ticketPrev : JiraTicket :=
  ⟨"PROJ-P", "Previous day ticket", .empty, "Backlog", none, [],
   "2024-06-01T00:00:00+00:00", "2024-05-09T23:00:00+00:00", []⟩

/-- Created after the recorded cutover instant. -/
def ticketLate : JiraTicket :=
  ⟨"PROJ-L", "Late ticket", .empty, "Backlog", none, [],
   "2024-06-01T00:00:00+00:00", "2024-05-10T18:00:00+00:00", []⟩

def envPrev : Env := { envNoop with jiraIssues := [ticketPrev] }

/-- Counterexample to C4 as stated: with cutover T = 2024-05-10T12:00:00Z
recorded and matching disabled, the fetch filter is the date-truncated
`created >= '2024-05-10'`, so a ticket created at 06:00 that day — strictly
before T — IS fetched for mapping purposes; the run still creates nothing
for it (the creation gate compares full instants). -/
theorem C4_counterexample :
    parse_datetime (some ticketEarly.created) = some ⟨2024, 5, 10, 6, 0, 0, 0, some 0⟩ ∧
    parse_datetime (some "2024-05-10T12:00:00+00:00") =
      some ⟨2024, 5, 10, 12, 0, 0, 0, some 0⟩ ∧
    dtLt ⟨2024, 5, 10, 6, 0, 0, 0, some 0⟩ ⟨2024, 5, 10, 12, 0, 0, 0, some 0⟩ = true ∧
    strftimeDate ⟨2024, 5, 10, 12, 0, 0, 0, some 0⟩ = "2024-05-10" ∧
    (fetchUpdatedJiraTickets envCut "2024-05-31" (some "2024-05-10")).map JiraTicket.key =
      ["PROJ-E"] ∧
    runSyncForClient cfgCut envCut [] = .ok (cfgCut, [], []) := by
  refine ⟨by decide, by decide, by decide, by decide, by decide, by decide⟩

theorem dtLe_eq_false_of_dtLt (a b : PyDatetime) (h : dtLt a b = true) :
    dtLe b a = false := by
  simp only [dtLt, Bool.or_eq_true, Bool.and_eq_true, decide_eq_true_eq] at h
  simp only [dtLe, Bool.or_eq_false_iff, Bool.and_eq_false_iff]
  constructor
  · simp only [decide_eq_false_iff_not]
    omega
  · rcases h with h | h
    · left
      simp only [decide_eq_false_iff_not]
      omega
    · right
      simp only [decide_eq_false_iff_not]
      omega

theorem createNewTicket_countP (cfg : SyncConfig) (env : Env) (mapping : Mapping)
    (t : JiraTicket) (k : String) :
    (createNewTicket cfg env mapping t).2.countP (isCreateFor k) =
      if t.key == k then 1 else 0 := by
  have hac : (getJiraAttachments cfg env t t.description).2.countP (isCreateFor k) = 0 := by
    rw [List.countP_eq_zero]
    intro c hc
    rcases getJiraAttachments_calls cfg env t t.description c hc with ⟨i, hi⟩ | ⟨u, hu⟩
    · simp [hi, isCreateFor]
    · simp [hu, isCreateFor]
  unfold createNewTicket
  cases hr : env.createTicketResp t with
  | some fdId =>
    dsimp only
    rw [List.countP_append, hac]
    simp only [Nat.zero_add]
    by_cases hk : (t.key == k) = true
    · rw [if_pos hk]
      simp [List.countP_cons, isCreateFor, hk]
    · rw [if_neg hk]
      have hk2 : (t.key == k) = false := Bool.eq_false_iff.mpr hk
      simp [List.countP_cons, isCreateFor, hk2]
  | none =>
    dsimp only
    rw [List.countP_append, hac]
    simp only [Nat.zero_add]
    by_cases hk : (t.key == k) = true
    · rw [if_pos hk]
      simp [List.countP_cons, isCreateFor, hk]
    · rw [if_neg hk]
      have hk2 : (t.key == k) = false := Bool.eq_false_iff.mpr hk
      simp [List.countP_cons, isCreateFor, hk2]

theorem cutoverFold_countP (env : Env) (firstRunDate : Option PyDatetime) (k : String) :
    ∀ (l : List JiraTicket) (acc : SyncConfig × Mapping × List Call),
      ((l.foldl (cutoverStep env firstRunDate) acc).2.2.countP (isCreateFor k)) =
        acc.2.2.countP (isCreateFor k) +
        l.countP (fun t2 => t2.key == k && cutoverCreateGate firstRunDate t2) := by
  intro l
  induction l with
  | nil => intro acc; simp
  | cons t ts ih =>
    intro acc
    rw [List.foldl_cons, ih, List.countP_cons]
    unfold cutoverStep
    by_cases hg : cutoverCreateGate firstRunDate t = true
    · rw [if_pos hg]
      dsimp only
      rw [List.countP_append, createNewTicket_countP]
      by_cases hk : (t.key == k) = true
      · rw [if_pos hk]
        simp [hk, hg]
        omega
      · have hk2 : (t.key == k) = false := Bool.eq_false_iff.mpr hk
        rw [if_neg hk]
        simp [hk2]
    · have hg2 : cutoverCreateGate firstRunDate t = false := Bool.eq_false_iff.mpr hg
      rw [if_neg hg]
      simp [hg2]

theorem countP_eq_one_of_unique {α : Type} (p : α → Bool) (t : α) :
    ∀ l : List α, l.Nodup → t ∈ l → (∀ x ∈ l, (p x = true ↔ x = t)) →
      l.countP p = 1 := by
  intro l
  induction l with
  | nil => intro _ ht; cases ht
  | cons x xs ih =>
    intro hnd ht hp
    rw [List.countP_cons]
    rcases List.mem_cons.mp ht with h1 | h1
    · have hpx : p x = true := (hp x (List.mem_cons_self _ _)).mpr h1.symm
      have hxs : xs.countP p = 0 := by
        rw [List.countP_eq_zero]
        intro y hy hpy
        have hyx : y = x := ((hp y (List.mem_cons_of_mem _ hy)).mp hpy).trans h1
        rw [hyx] at hy
        exact (List.nodup_cons.mp hnd).1 hy
      rw [hxs, hpx]
      simp
    · have hpx : p x = false := by
        by_contra hc
        rw [Bool.not_eq_false] at hc
        have hxt : x = t := (hp x (List.mem_cons_self _ _)).mp hc
        rw [hxt] at hnd
        exact (List.nodup_cons.mp hnd).1 h1
      have hrec := ih (List.nodup_cons.mp hnd).2 h1
        (fun y hy => hp y (List.mem_cons_of_mem _ hy))
      rw [hrec, hpx]
      simp


/-- C4 (amended): with matching disabled and a recorded cutover timestamp
T, (i) the fetch filter for mapping purposes is T's *calendar date*: a
source ticket created before the start of that day is never fetched (one
created earlier on the same day as T can still be fetched — see the
counterexample); (ii) a fetched ticket created strictly before T is never
created in the target system; (iii) a fetched unmapped ticket created at or
after T is created exactly once in the run; (iv) a ticket with a mapping
entry is never created again on any later run. -/
theorem C4_cutover_boundary :
    (∀ (env : Env) (sinceDateStr dstr : String) (t : JiraTicket)
       (floorDt createdDt : PyDatetime),
      fromisoformat dstr = some floorDt →
      parse_datetime (some t.created) = some createdDt →
      dtLt createdDt (astimezoneUtc floorDt) = true →
      t ∉ fetchUpdatedJiraTickets env sinceDateStr (some dstr)) ∧
    (∀ (cfg : SyncConfig) (env : Env) (jiraTickets : List JiraTicket) (mapping : Mapping)
       (t : JiraTicket) (ts : String) (T createdDt : PyDatetime),
      cfg.ENABLE_SMART_MAPPING = false →
      cfg.FIRST_RUN_TIMESTAMP = some ts →
      parse_datetime (some ts) = some T →
      (jiraTickets.map JiraTicket.key).Nodup →
      t ∈ jiraTickets →
      parse_datetime (some t.created) = some createdDt →
      dtLt createdDt T = true →
      (findAndMapNewTickets cfg env jiraTickets mapping).2.2.countP (isCreateFor t.key) = 0) ∧
    (∀ (cfg : SyncConfig) (env : Env) (jiraTickets : List JiraTicket) (mapping : Mapping)
       (t : JiraTicket) (ts : String) (T createdDt : PyDatetime),
      cfg.ENABLE_SMART_MAPPING = false →
      cfg.FIRST_RUN_TIMESTAMP = some ts →
      parse_datetime (some ts) = some T →
      (jiraTickets.map JiraTicket.key).Nodup →
      t ∈ jiraTickets →
      pyGet mapping t.key = none →
      parse_datetime (some t.created) = some createdDt →
      dtLe T createdDt = true →
      (findAndMapNewTickets cfg env jiraTickets mapping).2.2.countP (isCreateFor t.key) = 1) ∧
    (∀ (cfg : SyncConfig) (env : Env) (jiraTickets : List JiraTicket) (mapping : Mapping)
       (k : String) (e : MappingEntry),
      cfg.ENABLE_SMART_MAPPING = false →
      pyGet mapping k = some e →
      (findAndMapNewTickets cfg env jiraTickets mapping).2.2.countP (isCreateFor k) = 0) := by
  refine ⟨?_, ?_, ?_, ?_⟩
  · intro env sinceDateStr dstr t floorDt createdDt hfloor hcreated hlt hmem
    unfold fetchUpdatedJiraTickets at hmem
    have hcond := (List.mem_filter.mp hmem).2
    rw [Bool.and_eq_true] at hcond
    have h2 : jqlFieldSinceDate dstr t.created = true := hcond.2
    unfold jqlFieldSinceDate at h2
    rw [hfloor, hcreated] at h2
    have h3 : dtLe (astimezoneUtc floorDt) createdDt = true := h2
    rw [dtLe_eq_false_of_dtLt _ _ hlt] at h3
    cases h3
  · intro cfg env jiraTickets mapping t ts T createdDt hsm hts hT hnodup hmem hcreated hlt
    unfold findAndMapNewTickets
    by_cases hempty : (jiraTickets.filter (fun t2 => (pyGet mapping t2.key).isNone)).isEmpty
    · rw [if_pos hempty]
      rfl
    · rw [if_neg hempty, if_neg (by rw [hsm]; decide)]
      rw [hts]
      dsimp only
      rw [cutoverFold_countP]
      simp only [List.countP_nil, Nat.zero_add]
      rw [List.countP_eq_zero]
      intro x hx hpx
      rw [Bool.and_eq_true] at hpx
      have hxk : x.key = t.key := by simpa using hpx.1
      have hxj : x ∈ jiraTickets := (List.mem_filter.mp hx).1
      have hxt : x = t := List.inj_on_of_nodup_map hnodup hxj hmem hxk
      rw [hxt] at hpx
      have hg0 := hpx.2
      unfold cutoverCreateGate at hg0
      rw [hcreated, hT] at hg0
      have hg : dtLe T createdDt = true := hg0
      rw [dtLe_eq_false_of_dtLt _ _ hlt] at hg
      cases hg
  · intro cfg env jiraTickets mapping t ts T createdDt hsm hts hT hnodup hmem hunm hcreated hle
    have htin : t ∈ jiraTickets.filter (fun t2 => (pyGet mapping t2.key).isNone) := by
      rw [List.mem_filter]
      exact ⟨hmem, by rw [hunm]; rfl⟩
    unfold findAndMapNewTickets
    by_cases hempty : (jiraTickets.filter (fun t2 => (pyGet mapping t2.key).isNone)).isEmpty
    · exfalso
      rw [List.isEmpty_iff] at hempty
      rw [hempty] at htin
      cases htin
    · rw [if_neg hempty, if_neg (by rw [hsm]; decide)]
      rw [hts]
      dsimp only
      rw [cutoverFold_countP]
      simp only [List.countP_nil, Nat.zero_add]
      apply countP_eq_one_of_unique _ t
      · exact (hnodup.of_map JiraTicket.key).filter _
      · exact htin
      · intro x hx
        constructor
        · intro hpx
          rw [Bool.and_eq_true] at hpx
          have hxk : x.key = t.key := by simpa using hpx.1
          exact List.inj_on_of_nodup_map hnodup (List.mem_filter.mp hx).1 hmem hxk
        · intro hxt
          rw [hxt, Bool.and_eq_true]
          refine ⟨by simp, ?_⟩
          show cutoverCreateGate (parse_datetime (some ts)) t = true
          unfold cutoverCreateGate
          rw [hcreated, hT]
          exact hle
  · intro cfg env jiraTickets mapping k e hsm hget
    unfold findAndMapNewTickets
    by_cases hempty : (jiraTickets.filter (fun t2 => (pyGet mapping t2.key).isNone)).isEmpty
    · rw [if_pos hempty]
      rfl
    · rw [if_neg hempty, if_neg (by rw [hsm]; decide)]
      cases hts : cfg.FIRST_RUN_TIMESTAMP with
      | some ts =>
        dsimp only
        rw [cutoverFold_countP]
        simp only [List.countP_nil, Nat.zero_add]
        rw [List.countP_eq_zero]
        intro x hx hpx
        rw [Bool.and_eq_true] at hpx
        have hxk : x.key = k := by simpa using hpx.1
        have hxn := (List.mem_filter.mp hx).2
        rw [hxk, hget] at hxn
        cases hxn
      | none =>
        dsimp only
        rw [cutoverFold_countP]
        simp only [List.countP_nil, Nat.zero_add]
        rw [List.countP_eq_zero]
        intro x hx hpx
        rw [Bool.and_eq_true] at hpx
        have hxk : x.key = k := by simpa using hpx.1
        have hxn := (List.mem_filter.mp hx).2
        rw [hxk, hget] at hxn
        cases hxn

theorem C4_cutover_boundary_witness :
    ticketPrev ∉ fetchUpdatedJiraTickets envPrev "2024-05-31" (some "2024-05-10") ∧
    (findAndMapNewTickets cfgCut envCut [ticketEarly] []).2.2.countP
      (isCreateFor ticketEarly.key) = 0 ∧
    (findAndMapNewTickets cfgCut envCut [ticketLate] []).2.2.countP
      (isCreateFor ticketLate.key) = 1 ∧
    (findAndMapNewTickets cfgCut envCut [ticketEarly] mappingT0).2.2.countP
      (isCreateFor "PROJ-1") = 0 := by
  refine ⟨?_, ?_, ?_, ?_⟩
  · exact C4_cutover_boundary.1 envPrev "2024-05-31" "2024-05-10" ticketPrev
      ⟨2024, 5, 10, 0, 0, 0, 0, none⟩ ⟨2024, 5, 9, 23, 0, 0, 0, some 0⟩
      (by decide) (by decide) (by decide)
  · exact C4_cutover_boundary.2.1 cfgCut envCut [ticketEarly] [] ticketEarly
      "2024-05-10T12:00:00+00:00" ⟨2024, 5, 10, 12, 0, 0, 0, some 0⟩
      ⟨2024, 5, 10, 6, 0, 0, 0, some 0⟩
      rfl rfl (by decide) (by decide) (List.mem_singleton.mpr rfl) (by decide) (by decide)
  · exact C4_cutover_boundary.2.2.1 cfgCut envCut [ticketLate] [] ticketLate
      "2024-05-10T12:00:00+00:00" ⟨2024, 5, 10, 12, 0, 0, 0, some 0⟩
      ⟨2024, 5, 10, 18, 0, 0, 0, some 0⟩
      rfl rfl (by decide) (by decide) (List.mem_singleton.mpr rfl) rfl (by decide) (by decide)
  · exact C4_cutover_boundary.2.2.2 cfgCut envCut [ticketEarly] mappingT0 "PROJ-1" entryT0
      rfl (by decide)

end ITSM
